import Mathlib

/-!
Verification development for the epitome production pipeline.

This file gives a shallow embedding, in Lean, of the parts of the code base
that the specification talks about:

* `_repair_truncated_json` from `src/agents/production_workbook_generator.py`
  (the truncated-JSON repair heuristic), together with a strict JSON
  syntax checker `jsonValid` standing for `json.loads` succeeding
  (the `NaN`/`Infinity` extension of the Python parser is not modelled;
  no input considered here uses it);
* the enrichment clients and orchestrator from `src/agents/enrichment.py`
  (`get_location_coordinates`, `get_weather_data`, `find_nearest_hospital`,
  `enrich_production_data`), with HTTP traffic and the Python standard
  library (datetime, zoneinfo) modelled as explicit oracle parameters;
* `normalize_department` from `src/api/services/project_service.py`.

Python strings are modelled as `List Char` / `String`, Python numbers as `ℚ`,
Python `None` as `Option.none`, and a fallible call as an `Option` result.
-/

namespace Epitome

/-! ## Python string helpers -/

/-- Whitespace stripped by Python's `str.strip()` (ASCII range). -/
def isPySpace (c : Char) : Bool :=
  c = ' ' || c = '\t' || c = '\n' || c = '\r' || c = '\x0b' || c = '\x0c'

/-- `str.rstrip()` on a list of characters. -/
def pyRstripL (cs : List Char) : List Char :=
  (cs.reverse.dropWhile isPySpace).reverse

/-- `str.strip()` on a list of characters. -/
def pyStripL (cs : List Char) : List Char :=
  pyRstripL (cs.dropWhile isPySpace)

/-! ## `_repair_truncated_json`: forward scan

The first pass of the function walks the text left to right, toggling an
in-string flag on `"` (honouring backslash escapes) and counting
brace/bracket depth.  The depths computed here are later overwritten by the
backward scan, exactly as in the source; only `inString` survives. -/

structure FwdState where
  inString : Bool
  escapeNext : Bool
  braceDepth : Int
  bracketDepth : Int
deriving DecidableEq

def fwdStep (st : FwdState) (c : Char) : FwdState :=
  if st.escapeNext then { st with escapeNext := false }
  else if c = '\\' then { st with escapeNext := true }
  else if c = '"' then { st with inString := !st.inString }
  else if st.inString then st
  else if c = '\x7b' then { st with braceDepth := st.braceDepth + 1 }
  else if c = '\x7d' then { st with braceDepth := st.braceDepth - 1 }
  else if c = '[' then { st with bracketDepth := st.bracketDepth + 1 }
  else if c = ']' then { st with bracketDepth := st.bracketDepth - 1 }
  else st

def fwdScan (cs : List Char) : FwdState :=
  cs.foldl fwdStep ⟨false, false, 0, 0⟩

/-! ## `_repair_truncated_json`: backward scan

The second pass walks the text right to left.  A closing `}`/`]` increments
a counter, an opening `{`/`[` decrements it when the counter is positive and
otherwise stops the whole scan (`break` in the source), keeping whatever the
counters hold at that moment.  A backslash that is not the first character
makes the scan skip the character to its left, and `"` toggles an in-string
flag; both of these happen before the bracket logic, as in the source.
The scan is given the text in reverse order. -/

structure BwdState where
  endBrace : Nat
  endBracket : Nat
  inString : Bool
deriving DecidableEq

def bwdScan : List Char → BwdState → BwdState
  | [], st => st
  | c :: rest, st =>
    if c = '\\' then
      match rest with
      | [] => st
      | _ :: rest2 => bwdScan rest2 st
    else if c = '"' then bwdScan rest { st with inString := !st.inString }
    else if st.inString then bwdScan rest st
    else if c = '\x7d' then bwdScan rest { st with endBrace := st.endBrace + 1 }
    else if c = '\x7b' then
      if st.endBrace > 0 then bwdScan rest { st with endBrace := st.endBrace - 1 }
      else st
    else if c = ']' then bwdScan rest { st with endBracket := st.endBracket + 1 }
    else if c = '[' then
      if st.endBracket > 0 then bwdScan rest { st with endBracket := st.endBracket - 1 }
      else st
    else bwdScan rest st

/-! ## `_repair_truncated_json`: dangling-colon defense

The source finds the last `:` with `str.rfind`, and when the text after it
(stripped) is empty appends the value `null`.  The other two branches of the
`if`/`elif` chain in the source only `pass`, so they leave the text alone. -/

/-- Prefixes a value may start with, from the source's list
`['"', '[', '\x7b', 'null', 'true', 'false', '-', '0', ..., '9']`. -/
def valueStartPrefixes : List (List Char) :=
  [['"'], ['['], ['\x7b'], "null".data, "true".data, "false".data, ['-'],
   ['0'], ['1'], ['2'], ['3'], ['4'], ['5'], ['6'], ['7'], ['8'], ['9']]

def colonDefense (inString : Bool) (cs : List Char) : List Char :=
  match cs.reverse.dropWhile (fun c => !(c = ':')) with
  | [] => cs
  | _ :: before =>
    if before = [] || inString then cs
    else
      let afterColon := pyStripL (cs.reverse.takeWhile (fun c => !(c = ':'))).reverse
      if afterColon = [] then cs ++ "null".data
      else if afterColon.head? = some '"' && !(afterColon.getLast? = some '"') then cs
      else if !(valueStartPrefixes.any (fun p => p.isPrefixOf afterColon)) then cs
      else cs

/-- `if json_str.endswith(','): json_str = json_str[:-1].rstrip()`
preceded by a `rstrip`, as done twice in the source. -/
def stripTrailingComma (cs : List Char) : List Char :=
  let t := pyRstripL cs
  if t.getLast? = some ',' then pyRstripL t.dropLast else t

/-- The characters appended by the close-the-structures pass: a newline and
`brace` closing braces when `brace > 0`, then a newline and `bracket`
closing brackets when `bracket > 0`. -/
def closeChars (brace bracket : Nat) : List Char :=
  (if brace > 0 then '\n' :: List.replicate brace '\x7d' else []) ++
  (if bracket > 0 then '\n' :: List.replicate bracket ']' else [])

/-- Shallow embedding of `_repair_truncated_json`
(`src/agents/production_workbook_generator.py`).  The pipeline is the
source's, in order: strip, forward scan, rstrip, close an open string
literal, backward scan (whose depths replace the forward ones), the
dangling-colon defense, trailing-comma strip, appending closers for the
depths the backward scan reported, and a final trailing-comma strip. -/
def repairTruncatedJson (s : String) : String :=
  let cs0 := pyStripL s.data
  let st := fwdScan cs0
  let cs1 := pyRstripL cs0
  let cs2 := if st.inString then cs1 ++ ['"'] else cs1
  let inString := false
  let b := bwdScan cs2.reverse ⟨0, 0, false⟩
  let cs3 := colonDefense inString cs2
  let cs4 := stripTrailingComma cs3
  let cs5 := cs4 ++ closeChars b.endBrace b.endBracket
  let cs6 := stripTrailingComma cs5
  String.mk cs6

/-! ## A strict JSON syntax checker, standing for `json.loads` succeeding -/

def isJsonWs (c : Char) : Bool :=
  c = ' ' || c = '\t' || c = '\n' || c = '\r'

def skipWs (cs : List Char) : List Char := cs.dropWhile isJsonWs

def isHexDigit (c : Char) : Bool :=
  c.isDigit || ('a' ≤ c && c ≤ 'f') || ('A' ≤ c && c ≤ 'F')

/-- Consume the rest of a string literal (the opening quote already read).
Returns the remaining input. -/
def parseStringRest : Nat → List Char → Option (List Char)
  | 0, _ => none
  | _, [] => none
  | fuel + 1, c :: rest =>
    if c = '"' then some rest
    else if c = '\\' then
      match rest with
      | [] => none
      | e :: rest2 =>
        if e = '"' || e = '\\' || e = '/' || e = 'b' || e = 'f' || e = 'n'
            || e = 'r' || e = 't' then parseStringRest fuel rest2
        else if e = 'u' then
          match rest2 with
          | h1 :: h2 :: h3 :: h4 :: rest3 =>
            if isHexDigit h1 && isHexDigit h2 && isHexDigit h3 && isHexDigit h4 then
              parseStringRest fuel rest3
            else none
          | _ => none
        else none
    else if c.toNat < 32 then none
    else parseStringRest fuel rest

/-- Consume the integer part of a number (after an optional sign). -/
def parseIntPart : List Char → Option (List Char)
  | [] => none
  | c :: rest =>
    if c = '0' then some rest
    else if c.isDigit then some (rest.dropWhile Char.isDigit)
    else none

/-- Consume an optional fraction part. -/
def parseFracPart (cs : List Char) : Option (List Char) :=
  match cs with
  | '.' :: rest =>
    match rest with
    | c :: _ => if c.isDigit then some (rest.dropWhile Char.isDigit) else none
    | [] => none
  | _ => some cs

/-- Consume an optional exponent part. -/
def parseExpPart (cs : List Char) : Option (List Char) :=
  match cs with
  | c :: rest =>
    if c = 'e' || c = 'E' then
      let rest2 := match rest with
        | s :: r2 => if s = '+' || s = '-' then r2 else rest
        | [] => rest
      match rest2 with
      | d :: _ => if d.isDigit then some (rest2.dropWhile Char.isDigit) else none
      | [] => none
    else some cs
  | [] => some cs

def parseNumber (cs : List Char) : Option (List Char) :=
  let cs1 := match cs with
    | '-' :: rest => rest
    | _ => cs
  match parseIntPart cs1 with
  | none => none
  | some cs2 =>
    match parseFracPart cs2 with
    | none => none
    | some cs3 => parseExpPart cs3

mutual

/-- Parse one JSON value, returning the remaining input. -/
def parseValue : Nat → List Char → Option (List Char)
  | 0, _ => none
  | fuel + 1, cs =>
    match skipWs cs with
    | [] => none
    | c :: rest =>
      if c = '\x7b' then
        match skipWs rest with
        | '\x7d' :: rest2 => some rest2
        | rest2 => parseMembers fuel rest2
      else if c = '[' then
        match skipWs rest with
        | ']' :: rest2 => some rest2
        | rest2 => parseItems fuel rest2
      else if c = '"' then parseStringRest fuel rest
      else if c = 't' then
        match rest with
        | 'r' :: 'u' :: 'e' :: rest2 => some rest2
        | _ => none
      else if c = 'f' then
        match rest with
        | 'a' :: 'l' :: 's' :: 'e' :: rest2 => some rest2
        | _ => none
      else if c = 'n' then
        match rest with
        | 'u' :: 'l' :: 'l' :: rest2 => some rest2
        | _ => none
      else if c = '-' || c.isDigit then parseNumber (c :: rest)
      else none

/-- Parse the members of an object, from the first key on, including the
closing brace. -/
def parseMembers : Nat → List Char → Option (List Char)
  | 0, _ => none
  | fuel + 1, cs =>
    match skipWs cs with
    | '"' :: rest =>
      match parseStringRest fuel rest with
      | none => none
      | some rest2 =>
        match skipWs rest2 with
        | ':' :: rest3 =>
          match parseValue fuel rest3 with
          | none => none
          | some rest4 =>
            match skipWs rest4 with
            | ',' :: rest5 => parseMembers fuel rest5
            | '\x7d' :: rest5 => some rest5
            | _ => none
        | _ => none
    | _ => none

/-- Parse the items of an array, from the first item on, including the
closing bracket. -/
def parseItems : Nat → List Char → Option (List Char)
  | 0, _ => none
  | fuel + 1, cs =>
    match parseValue fuel cs with
    | none => none
    | some rest =>
      match skipWs rest with
      | ',' :: rest2 => parseItems fuel rest2
      | ']' :: rest2 => some rest2
      | _ => none

end

/-- `jsonValid s` holds exactly when `s` is a syntactically valid JSON
document: one value, possibly surrounded by whitespace. -/
def jsonValid (s : String) : Bool :=
  match parseValue (2 * s.length + 4) s.data with
  | some rest => skipWs rest = []
  | none => false

/-! ## Enrichment: data model

The production record is a Python dict; the fields below are the keys the
enrichment code reads or writes.  `Option` stands for a key that is missing
or `None` (the source treats the two alike everywhere it touches them). -/

structure Coordinates where
  lat : Option ℚ
  lng : Option ℚ
deriving DecidableEq

/-- The dict returned by a successful `get_location_coordinates` call. -/
structure GeoCoords where
  lat : ℚ
  lng : ℚ
  formatted_address : String
deriving DecidableEq

structure Hospital where
  name : String
  address : String
deriving DecidableEq

structure ResearchSource where
  title : String
  url : String
deriving DecidableEq

structure Research where
  summary : Option String
  sources : List ResearchSource
deriving DecidableEq

structure Temperature where
  high : String
  low : String
deriving DecidableEq

/-- The dict built by `get_weather_data`; `conditions` can be `None` when the
upstream description carries an explicit null `text`. -/
structure Weather where
  date : String
  sunrise : String
  sunset : String
  temperature : Temperature
  conditions : Option String
  wind : String
deriving DecidableEq

structure Location where
  name : Option String
  address : Option String
  coordinates : Option Coordinates
  formatted_address : Option String
  parking_notes : Option String
deriving DecidableEq

structure ScheduleDay where
  day_number : Option Nat
  date : Option String
  crew_call_time : Option String
  talent_call_time : Option String
  weather : Option Weather
deriving DecidableEq

structure CrewEntry where
  department : Option String
  role : Option String
  name : Option String
  phone : Option String
  email : Option String
  rate : Option String
deriving DecidableEq

structure ProductionInfo where
  job_name : Option String
  client : Option String
  job_number : Option String
  production_company : Option String
deriving DecidableEq

structure ClientInfo where
  name : Option String
  logo_url : Option String
  research : Option Research
deriving DecidableEq

structure Logistics where
  locations : List Location
  weather : Option Weather
  hospital : Option Hospital
deriving DecidableEq

structure ProductionRecord where
  production_info : Option ProductionInfo
  logistics : Option Logistics
  schedule_days : List ScheduleDay
  crew_list : List CrewEntry
  client_info : Option ClientInfo
deriving DecidableEq

/-! ## Enrichment: orchestrator

`enrich_production_data` calls the five client functions and the
`datetime.strptime` date check; those are passed in as oracles, so the
theorems below quantify over every possible outcome of the outbound calls.
The thread-pool fan-out applies each result to its own slot, so the
sequential application below is observationally the same record.  The
function also returns a log of the lookup calls it issued. -/

structure EnrichEnv where
  geocode : String → Option GeoCoords
  logo : String → Option String
  research : String → Option Research
  weather : ℚ → ℚ → String → Option Weather
  hospital : ℚ → ℚ → Option Hospital
  validDate : String → Bool

structure EnrichLog where
  geocodeCalls : List String
  logoCalls : List String
  researchCalls : List String
  weatherCalls : List (ℚ × ℚ × String)
  hospitalCalls : List (ℚ × ℚ)
deriving DecidableEq

/-- ASCII uppercase of one character (`str.upper` restricted to the ASCII
range, which covers every string the code compares with). -/
def upChar (c : Char) : Char :=
  if 'a' ≤ c && c ≤ 'z' then Char.ofNat (c.toNat - 32) else c

/-- `str.upper()` on the ASCII range. -/
def pyUpper (s : String) : String := String.mk (s.data.map upChar)

/-- Python truthiness of an optional string. -/
def pyTruthy (o : Option String) : Bool :=
  match o with
  | some s => !(s = "")
  | none => false

/-- `extracted_data.get('production_info', \x7b\x7d).get('client', '')`. -/
def clientVal (r : ProductionRecord) : Option String :=
  match r.production_info with
  | none => some ""
  | some pi => pi.client

/-- The `(index, address)` pairs submitted for geocoding: addresses that are
present, non-empty and not the `TBD` sentinel. -/
def addressesToGeocode (locs : List Location) : List (Nat × String) :=
  locs.enum.filterMap fun p =>
    let a := p.2.address.getD ""
    if !(a = "") && !(pyUpper a = "TBD") then some (p.1, a) else none

/-- The geocoding results that came back truthy, keyed by location index. -/
def geocodeResults (env : EnrichEnv) (addrs : List (Nat × String)) :
    List (Nat × GeoCoords) :=
  addrs.filterMap fun p => (env.geocode p.2).map (fun c => (p.1, c))

/-- Write each geocoding result onto its location (`coordinates` and
`formatted_address`). -/
def applyCoords (locs : List Location) (res : List (Nat × GeoCoords)) :
    List Location :=
  locs.enum.map fun p =>
    match (res.find? (fun q => q.1 == p.1)).map Prod.snd with
    | some c =>
      { p.2 with coordinates := some ⟨some c.lat, some c.lng⟩,
                 formatted_address := some c.formatted_address }
    | none => p.2

/-- First location whose `coordinates` entry is truthy. -/
def primaryCoords (locs : List Location) : Option Coordinates :=
  locs.findSome? (fun loc => loc.coordinates)

/-- `is_valid_date` from the weather phase: non-empty, not `TBD`, and
`datetime.strptime(date_str, '%Y-%m-%d')` succeeds. -/
def isValidDate (env : EnrichEnv) (s : String) : Bool :=
  if s = "" || pyUpper s = "TBD" then false else env.validDate s

/-- `dates_to_fetch`: the truthy, valid dates of the schedule days, in
order, duplicates kept (the source submits one task per list entry). -/
def datesToFetch (env : EnrichEnv) (days : List ScheduleDay) : List String :=
  days.filterMap fun d =>
    match d.date with
    | some s => if !(s = "") && isValidDate env s then some s else none
    | none => none

/-- The weather results that came back truthy, keyed by date. -/
def weatherResults (env : EnrichEnv) (la ln : ℚ) (dates : List String) :
    List (String × Weather) :=
  dates.filterMap fun dt => (env.weather la ln dt).map (fun w => (dt, w))

/-- Lookup in the weather result table. -/
def wlookup (res : List (String × Weather)) (dt : String) : Option Weather :=
  (res.find? (fun p => p.1 == dt)).map Prod.snd

/-- `if date and date in weather_results: day['weather'] = ...`. -/
def applyWeather (days : List ScheduleDay) (res : List (String × Weather)) :
    List ScheduleDay :=
  days.map fun d =>
    match d.date with
    | some dt =>
      if !(dt = "") then
        match wlookup res dt with
        | some w => { d with weather := some w }
        | none => d
      else d
    | none => d

/-- `enriched.get('logistics', \x7b\x7d).get('locations', [])`. -/
def recLocations (r : ProductionRecord) : List Location :=
  match r.logistics with
  | some lg => lg.locations
  | none => []

/-- The locations after the geocoding fan-out has been applied. -/
def enrichedLocations (env : EnrichEnv) (r : ProductionRecord) : List Location :=
  applyCoords (recLocations r) (geocodeResults env (addressesToGeocode (recLocations r)))

/-- The weather phase: with a primary coordinate whose `lat`/`lng` are
present, a non-empty schedule and at least one valid date, fetch the
weather per date, apply it to the days, and pick the record-level summary
from the first schedule day's date.  Returns the updated days, the summary
to write (if any) and the issued calls. -/
def weatherPhaseOf (env : EnrichEnv) (scheduleDays : List ScheduleDay)
    (firstDate : Option String) (primary : Option Coordinates) :
    List ScheduleDay × Option Weather × List (ℚ × ℚ × String) :=
  match primary, scheduleDays with
  | some pc, _ :: _ =>
    (match pc.lat, pc.lng with
     | some la, some ln =>
       let dates := datesToFetch env scheduleDays
       if dates = [] then (scheduleDays, none, [])
       else
         let wres := weatherResults env la ln dates
         let days2 := applyWeather scheduleDays wres
         let lw := match firstDate with
           | some fd => if !(fd = "") then wlookup wres fd else none
           | none => none
         (days2, lw, dates.map (fun dt => (la, ln, dt)))
     | _, _ => (scheduleDays, none, []))
  | _, _ => (scheduleDays, none, [])

/-- The hospital phase: one lookup when a primary coordinate with
`lat`/`lng` exists. -/
def hospitalPhaseOf (env : EnrichEnv) (primary : Option Coordinates) :
    Option Hospital × List (ℚ × ℚ) :=
  match primary with
  | some pc =>
    (match pc.lat, pc.lng with
     | some la, some ln => (env.hospital la ln, [(la, ln)])
     | _, _ => (none, []))
  | none => (none, [])

/-- Shallow embedding of `enrich_production_data`
(`src/agents/enrichment.py`).  Returns the enriched record and the log of
outbound lookups.  Progress emission is pure output and is not modelled. -/
def enrich_production_data (env : EnrichEnv) (r : ProductionRecord) :
    ProductionRecord × EnrichLog :=
  let clientName := clientVal r
  let locations := recLocations r
  let scheduleDays := r.schedule_days
  let firstDate := scheduleDays.head?.bind (fun d => d.date)
  let addrs := addressesToGeocode locations
  let clientJobs :=
    if pyTruthy clientName then
      let nm := clientName.getD ""
      (env.logo nm, env.research nm, [nm], [nm])
    else (none, none, [], [])
  let ci : ClientInfo := ⟨clientName, clientJobs.1, clientJobs.2.1⟩
  let r2 := { r with client_info := some ci }
  let locations2 := enrichedLocations env r
  let r3 := { r2 with logistics :=
                r2.logistics.map (fun lg : Logistics => { lg with locations := locations2 }) }
  let primary := primaryCoords locations2
  let weatherPhase := weatherPhaseOf env scheduleDays firstDate primary
  let r4 := { r3 with
    schedule_days := weatherPhase.1,
    logistics := match weatherPhase.2.1 with
      | some w => r3.logistics.map (fun lg : Logistics => { lg with weather := some w })
      | none => r3.logistics }
  let hospitalPhase := hospitalPhaseOf env primary
  let r5 := { r4 with logistics :=
    match hospitalPhase.1 with
    | some h => r4.logistics.map (fun lg : Logistics => { lg with hospital := some h })
    | none => r4.logistics }
  (r5, ⟨addrs.map Prod.snd, clientJobs.2.2.1, clientJobs.2.2.2,
        weatherPhase.2.2, hospitalPhase.2⟩)


/-! ## Client: `get_location_coordinates`

The HTTP round trip is an oracle `upstream`; `GeoResponse.failure` covers a
raised exception (network error, malformed payload), and a payload carries
the consumed fields of the JSON body.  The function returns its result, the
cache after the call, and whether an upstream request was issued. -/

/-- ASCII lowercase of one character (`str.lower` on the ASCII range). -/
def downChar (c : Char) : Char :=
  if 'A' ≤ c && c ≤ 'Z' then Char.ofNat (c.toNat + 32) else c

/-- `str.lower()` on the ASCII range. -/
def pyLower (s : String) : String := String.mk (s.data.map downChar)

/-- `str.strip()`. -/
def pyStrip (s : String) : String := String.mk (pyStripL s.data)

structure GeoApiResult where
  lat : ℚ
  lng : ℚ
  formatted_address : Option String
deriving DecidableEq

inductive GeoResponse where
  | failure
  | payload (status : String) (results : List GeoApiResult)
deriving DecidableEq

/-- Shallow embedding of `get_location_coordinates` (`src/agents/enrichment.py`).
Returns `(result, cache after the call, whether the upstream was consulted)`. -/
def get_location_coordinates (upstream : String → GeoResponse) (apiKey : Option String)
    (cache : List (String × GeoCoords)) (address : String) :
    Option GeoCoords × List (String × GeoCoords) × Bool :=
  if address = "" || pyUpper address = "TBD" then (none, cache, false)
  else
    let key := pyStrip (pyLower address)
    match (cache.find? (fun p => p.1 == key)).map Prod.snd with
    | some v => (some v, cache, false)
    | none =>
      match apiKey with
      | none => (none, cache, false)
      | some _ =>
        match upstream address with
        | .failure => (none, cache, true)
        | .payload status results =>
          if status = "OK" then
            match results with
            | r :: _ =>
              let coords : GeoCoords := ⟨r.lat, r.lng, r.formatted_address.getD address⟩
              (some coords, (key, coords) :: cache, true)
            | [] => (none, cache, true)
          else (none, cache, true)

/-! ## Client: `find_nearest_hospital` -/

structure PlaceResult where
  name : Option String
  formatted_address : Option String
  vicinity : Option String
deriving DecidableEq

inductive PlacesResponse where
  | failure
  | payload (status : String) (results : List PlaceResult)
deriving DecidableEq

/-- `needle in hay` on character lists. -/
def containsSub (needle hay : List Char) : Bool :=
  hay.tails.any (fun t => needle.isPrefixOf t)

def hospital_keywords : List String :=
  ["hospital", "sykehus", "medical center", "emergency"]

def clinic_keywords : List String :=
  ["legesenter", "clinic", "klinikk", "doctor", "dental", "tannlege"]

/-- `result.get('name', '').lower()`. -/
def placeNameLower (r : PlaceResult) : List Char :=
  (pyLower (r.name.getD "")).data

def kwAny (kws : List String) (n : List Char) : Bool :=
  kws.any (fun k => containsSub k.data n)

/-- Build the returned dict: `name` defaults to `"Hospital"`, the address is
`formatted_address` with `vicinity` then `''` as fallbacks. -/
def mkHospital (r : PlaceResult) : Hospital :=
  ⟨r.name.getD "Hospital", r.formatted_address.getD (r.vicinity.getD "")⟩

/-- Shallow embedding of `find_nearest_hospital` (`src/agents/enrichment.py`).
The two `for` loops with `continue`/early `return` are the two `find?`
passes: first result with a hospital keyword and no clinic keyword, then
first result with no clinic keyword, then the first result. -/
def find_nearest_hospital (upstream : PlacesResponse) (apiKey : Option String)
    (lat lng : Option ℚ) : Option Hospital :=
  match lat, lng with
  | some _, some _ =>
    (match apiKey with
     | none => none
     | some _ =>
       match upstream with
       | .failure => none
       | .payload status results =>
         if status = "OK" then
           match results with
           | [] => none
           | _ :: _ =>
             match results.find? (fun r =>
                 !(kwAny clinic_keywords (placeNameLower r)) &&
                 kwAny hospital_keywords (placeNameLower r)) with
             | some r => some (mkHospital r)
             | none =>
               match results.find? (fun r =>
                   !(kwAny clinic_keywords (placeNameLower r))) with
               | some r => some (mkHospital r)
               | none => results.head?.map mkHospital
         else none)
  | _, _ => none

/-! ## Client: `get_weather_data`

The upstream JSON body is modelled field by field as the source reads it:
each `isinstance` dispatch becomes an inductive with a constructor per
shape.  The datetime library is abstracted: `parseDate` stands for
`datetime.strptime(date, '%Y-%m-%d')` (returning an ordinal day count),
`todayOrd` for today's ordinal, `parseIsoTime` for the ISO-timestamp
helper, and `fmtHM` for `datetime(...).strftime('%I:%M %p').lstrip('0')`
applied to an hour/minute pair. -/

inductive TempField where
  | absent
  | num (q : ℚ)
  | dict (degrees : Option ℚ) (value : Option ℚ)
  | other
deriving DecidableEq

inductive OldTempField where
  | absent
  | dict (max min : Option ℚ)
  | nondict
deriving DecidableEq

inductive DateVal where
  | dictDate (year month day : Option Int)
  | strDate (s : String)
deriving DecidableEq

/-- Python truthiness of a date object: a string is truthy when non-empty, a
dict when non-empty (modelled over the keys the source reads). -/
def dateTruthy : DateVal → Bool
  | .dictDate y m d => y.isSome || m.isSome || d.isSome
  | .strDate s => !(s = "")

inductive DescField where
  | absent
  | dict (text : Option (Option String))
  | str (s : String)
  | other
deriving DecidableEq

inductive WCField where
  | absent
  | dict (description : DescField)
  | str (s : String)
  | other
deriving DecidableEq

inductive DayFcField where
  | absent
  | dict (weatherCondition : WCField)
  | nondict
deriving DecidableEq

inductive CondField where
  | str (s : String)
  | nonstr
deriving DecidableEq

inductive SunField where
  | absent
  | dict (sunriseTime sunsetTime : Option String)
  | nondict
deriving DecidableEq

inductive AstroSub where
  | absent
  | dict (hour minute : Option Int)
  | nondict
deriving DecidableEq

inductive AstroField where
  | absent
  | dict (sunrise sunset : AstroSub)
  | nondict
deriving DecidableEq

inductive WindField where
  | absent
  | dict (speed : Option ℚ)
  | nondict
deriving DecidableEq

inductive TZField where
  | absent
  | dict (id : Option String)
  | nondict
deriving DecidableEq

structure Forecast where
  displayDate : Option DateVal
  date : Option DateVal
  maxTemperature : TempField
  minTemperature : TempField
  temperature : OldTempField
  daytimeForecast : DayFcField
  condition : Option CondField
  sunEvents : SunField
  astronomicalData : AstroField
  wind : WindField
deriving DecidableEq

structure WeatherData where
  forecastDays : Option (List Forecast)
  dailyForecasts : Option (List Forecast)
  timeZone : TZField
deriving DecidableEq

inductive WeatherResponse where
  | failure
  | payload (data : WeatherData)
deriving DecidableEq

/-- Python `x or y` on optional numbers (`0` is falsy). -/
def pyOrQ (a b : Option ℚ) : Option ℚ :=
  match a with
  | some q => if q = 0 then b else some q
  | none => b

/-- `f"\x7bm:02d\x7d"`: zero-pad to two digits. -/
def pad2 (n : Int) : String :=
  if 0 ≤ n && n < 10 then "0" ++ toString n else toString n

/-- `forecast.get('displayDate') or forecast.get('date', \x7b\x7d)` and the
following dict-or-string dispatch building the comparison string. -/
def forecastDateStr (f : Forecast) : String :=
  let b := match f.date with
    | some dv => dv
    | none => .dictDate none none none
  let dobj := match f.displayDate with
    | some dv => if dateTruthy dv then dv else b
    | none => b
  match dobj with
  | .dictDate y m d =>
    toString (y.getD 0) ++ "-" ++ pad2 (m.getD 0) ++ "-" ++ pad2 (d.getD 0)
  | .strDate s => s

/-- New-format temperature extraction: a number is taken as is, a dict goes
through `get('degrees') or get('value')`. -/
def extractNewTemp : TempField → Option ℚ
  | .absent => none
  | .num q => some q
  | .dict d v => pyOrQ d v
  | .other => none

/-- `temp_high`: the new format applies when `maxTemperature` is a key of
the forecast, else the old `temperature` dict is consulted. -/
def extractTempHigh (f : Forecast) : Option ℚ :=
  match f.maxTemperature with
  | .absent =>
    (match f.temperature with
     | .dict mx _ => mx
     | _ => none)
  | tf => extractNewTemp tf

/-- `temp_low`, under the same format dispatch as `temp_high`. -/
def extractTempLow (f : Forecast) : Option ℚ :=
  match f.maxTemperature with
  | .absent =>
    (match f.temperature with
     | .dict _ mn => mn
     | _ => none)
  | _ => extractNewTemp f.minTemperature

/-- The `conditions` extraction chain; `none` is possible when the upstream
description carries an explicit null `text`. -/
def extractConditions (f : Forecast) : Option String :=
  match f.daytimeForecast with
  | .dict wc =>
    (match wc with
     | .dict desc =>
       (match desc with
        | .dict text =>
          (match text with
           | none => some "Unknown"
           | some t => t)
        | .str s => some s
        | .absent => some "Unknown"
        | .other => some "Unknown")
     | .str s => some s
     | .absent => some "Unknown"
     | .other => some "Unknown")
  | _ =>
    match f.condition with
    | some (.str s) => some s
    | some .nonstr => some "Unknown"
    | none => some "Unknown"

/-- Sunrise/sunset: `sunEvents` first, and when both strings stay empty the
`astronomicalData` fallback (whose missing sub-dicts default to hour 0,
minute 0, as `\x7b\x7d.get('hour', 0)` does in the source). -/
def extractSun (parseIsoTime : Option String → Option String → String)
    (fmtHM : Int → Int → String) (tzId : Option String) (f : Forecast) :
    String × String :=
  let se : String × String :=
    match f.sunEvents with
    | .dict sr ss => (parseIsoTime sr tzId, parseIsoTime ss tzId)
    | _ => ("", "")
  if se.1 = "" && se.2 = "" then
    match f.astronomicalData with
    | .dict sr ss =>
      let sunrise := match sr with
        | .dict h m => fmtHM (h.getD 0) (m.getD 0)
        | .absent => fmtHM 0 0
        | .nondict => ""
      let sunset := match ss with
        | .dict h m => fmtHM (h.getD 0) (m.getD 0)
        | .absent => fmtHM 0 0
        | .nondict => ""
      (sunrise, sunset)
    | .absent => (fmtHM 0 0, fmtHM 0 0)
    | .nondict => ("", "")
  else se

def extractWindSpeed (f : Forecast) : Option ℚ :=
  match f.wind with
  | .dict s => s
  | _ => none

/-- Round `n / d` (with `d > 0`) half to even, on integers. -/
def roundHalfEvenND (n d : Int) : Int :=
  let f := n.fdiv d
  let r := n - f * d
  if 2 * r < d then f
  else if d < 2 * r then f + 1
  else if f % 2 = 0 then f else f + 1

/-- Round half to even, as Python's `round`. -/
def roundHalfEven (q : ℚ) : Int := roundHalfEvenND q.num q.den

/-- `round(x, 2)`: the nearest multiple of `1/100`, half to even. -/
def round2 (q : ℚ) : ℚ := mkRat (roundHalfEvenND (q.num * 100) q.den) 100

/-- `f"\x7bround(t)\x7dF" if t else 'TBD'`: `None` and `0` both fall to the
sentinel because the source tests truthiness, not presence. -/
def fmtTemp (t : Option ℚ) : String :=
  match t with
  | some q => if q = 0 then "TBD" else toString (roundHalfEven q) ++ "F"
  | none => "TBD"

/-- `f"\x7bround(w)\x7d mph" if w else 'TBD'`. -/
def fmtWind (w : Option ℚ) : String :=
  match w with
  | some q => if q = 0 then "TBD" else toString (roundHalfEven q) ++ " mph"
  | none => "TBD"

/-- `data.get('forecastDays') or data.get('dailyForecasts') or []`. -/
def pyOrForecasts (data : WeatherData) : List Forecast :=
  match data.forecastDays with
  | some (x :: xs) => x :: xs
  | _ =>
    match data.dailyForecasts with
    | some (y :: ys) => y :: ys
    | _ => []

/-- The forecast matching the requested date, else the first forecast. -/
def targetForecast (data : WeatherData) (date : String) : Option Forecast :=
  let forecasts := pyOrForecasts data
  match forecasts.find? (fun f => forecastDateStr f == date) with
  | some f => some f
  | none => forecasts.head?

def tzIdOf (data : WeatherData) : Option String :=
  match data.timeZone with
  | .dict i => i
  | _ => none

/-- `if target_forecast:`: dict truthiness over the modelled keys. -/
def forecastTruthy (f : Forecast) : Bool :=
  f.displayDate.isSome || f.date.isSome ||
  !(f.maxTemperature = .absent) || !(f.minTemperature = .absent) ||
  !(f.temperature = .absent) || !(f.daytimeForecast = .absent) ||
  f.condition.isSome || !(f.sunEvents = .absent) ||
  !(f.astronomicalData = .absent) || !(f.wind = .absent)

/-- The `weather_result` dict assembled on the success path. -/
def buildWeather (parseIsoTime : Option String → Option String → String)
    (fmtHM : Int → Int → String) (tzId : Option String)
    (date : String) (f : Forecast) : Weather :=
  let sun := extractSun parseIsoTime fmtHM tzId f
  ⟨date, sun.1, sun.2,
   ⟨fmtTemp (extractTempHigh f), fmtTemp (extractTempLow f)⟩,
   extractConditions f, fmtWind (extractWindSpeed f)⟩

/-- Shallow embedding of `get_weather_data` (`src/agents/enrichment.py`).
Returns `(result, cache after the call, whether the upstream was consulted)`.
The branches are the source's, in order: coordinate validation, missing API
key, cache hit keyed on coordinates rounded to two decimals plus the date,
date parsing and the 10-days-ahead / 1-day-behind horizon, the upstream
call, and response parsing. -/
def get_weather_data (parseDate : String → Option Int) (todayOrd : Int)
    (upstream : WeatherResponse) (apiKey : Option String)
    (parseIsoTime : Option String → Option String → String)
    (fmtHM : Int → Int → String)
    (cache : List ((ℚ × ℚ × String) × Weather))
    (lat lng : Option ℚ) (date : String) :
    Option Weather × List ((ℚ × ℚ × String) × Weather) × Bool :=
  match lat, lng with
  | some la, some ln =>
    if !((-90 : ℚ) ≤ la && la ≤ 90) || !((-180 : ℚ) ≤ ln && ln ≤ 180) then
      (none, cache, false)
    else
      (match apiKey with
       | none => (none, cache, false)
       | some _ =>
         let key : ℚ × ℚ × String := (round2 la, round2 ln, date)
         match (cache.find? (fun p => p.1 == key)).map Prod.snd with
         | some w => (some w, cache, false)
         | none =>
           match parseDate date with
           | none => (none, cache, false)
           | some target =>
             let daysAhead := target - todayOrd
             if daysAhead > 10 then (none, cache, false)
             else if daysAhead < -1 then (none, cache, false)
             else if 0 ≤ daysAhead && daysAhead ≤ 10 then
               match upstream with
               | .failure => (none, cache, true)
               | .payload data =>
                 match pyOrForecasts data with
                 | [] => (none, cache, true)
                 | _ :: _ =>
                   match targetForecast data date with
                   | some f =>
                     if forecastTruthy f then
                       let w := buildWeather parseIsoTime fmtHM (tzIdOf data) date f
                       (some w, (key, w) :: cache, true)
                     else (none, cache, true)
                   | none => (none, cache, true)
             else (none, cache, false))
  | _, _ => (none, cache, false)

/-! ## `normalize_department` (`src/api/services/project_service.py`) -/

def DEPARTMENT_NORMALIZE_MAP : List (String × String) :=
  [("PRODUCTION", "PRODUCTION"),
   ("CAMERA", "CAMERA"),
   ("CAMERA DEPT", "CAMERA"),
   ("DIGITAL", "CAMERA"),
   ("G&E", "GRIP_ELECTRIC"),
   ("GRIP", "GRIP_ELECTRIC"),
   ("ELECTRIC", "GRIP_ELECTRIC"),
   ("LIGHTING", "GRIP_ELECTRIC"),
   ("GRIP & ELECTRIC", "GRIP_ELECTRIC"),
   ("GRIP_ELECTRIC", "GRIP_ELECTRIC"),
   ("ART", "ART"),
   ("ART DEPT", "ART"),
   ("WARDROBE", "WARDROBE"),
   ("HAIR", "HAIR_MAKEUP"),
   ("MAKEUP", "HAIR_MAKEUP"),
   ("HAIR & MAKEUP", "HAIR_MAKEUP"),
   ("HAIR_MAKEUP", "HAIR_MAKEUP"),
   ("HMU", "HAIR_MAKEUP"),
   ("VANITIES", "HAIR_MAKEUP"),
   ("SOUND", "SOUND"),
   ("LOCATIONS", "LOCATIONS"),
   ("TRANSPORTATION", "TRANSPORTATION"),
   ("TRANSPO", "TRANSPORTATION"),
   ("CATERING", "CATERING"),
   ("CRAFT", "CATERING"),
   ("CRAFT SERVICES", "CATERING"),
   ("POST", "POST_PRODUCTION"),
   ("POST PRODUCTION", "POST_PRODUCTION"),
   ("POST_PRODUCTION", "POST_PRODUCTION"),
   ("STILLS", "CAMERA"),
   ("TALENT", "OTHER"),
   ("MGMT", "PRODUCTION"),
   ("DIRECTING", "PRODUCTION"),
   ("MEDICAL", "OTHER"),
   ("OTHER", "OTHER")]

/-- The department enum of the specification. -/
def departmentEnum : List String :=
  ["PRODUCTION", "CAMERA", "GRIP_ELECTRIC", "ART", "WARDROBE", "HAIR_MAKEUP",
   "SOUND", "LOCATIONS", "TRANSPORTATION", "CATERING", "POST_PRODUCTION",
   "OTHER"]

/-- Shallow embedding of `normalize_department`: `None` and the empty string
fall to `OTHER`, otherwise the uppercased stripped input is looked up in the
table with an `OTHER` default. -/
def normalize_department (dept : Option String) : String :=
  match dept with
  | none => "OTHER"
  | some s =>
    if s = "" then "OTHER"
    else
      ((DEPARTMENT_NORMALIZE_MAP.find?
          (fun p => p.1 == pyStrip (pyUpper s))).map Prod.snd).getD "OTHER"

/-! ## Concrete data used by witnesses and counterexamples -/

/-- The hospital-search scenario of the specification: a clinic first, a
true hospital second. -/
def veniceResults : List PlaceResult :=
  [⟨some "Venice Family Clinic", some "A St", none⟩,
   ⟨some "Marina Medical Center Emergency", some "B St", none⟩]

/-- The selection rule as the specification words it: the first result
matching a hospital keyword and no clinic keyword, else the first result
with no clinic keyword, else the first result. -/
def selectHospitalSpec (rs : List PlaceResult) : Option PlaceResult :=
  ((rs.find? (fun r => kwAny hospital_keywords (placeNameLower r) &&
      !(kwAny clinic_keywords (placeNameLower r)))).orElse
    (fun _ => rs.find? (fun r => !(kwAny clinic_keywords (placeNameLower r))))).orElse
    (fun _ => rs.head?)

/-- An environment in which every outbound lookup fails (for example when no
API key is configured). -/
def envAllNone : EnrichEnv :=
  ⟨fun _ => none, fun _ => none, fun _ => none, fun _ _ _ => none,
   fun _ _ => none, fun _ => false⟩

/-- An environment in which only the hospital lookup succeeds. -/
def envHospOnly : EnrichEnv :=
  ⟨fun _ => none, fun _ => none, fun _ => none, fun _ _ _ => none,
   fun _ _ => some ⟨"API Hospital", "2 Api St"⟩, fun _ => false⟩

/-- A record whose `client_info` already carries a non-null logo URL. -/
def recWithClientInfo : ProductionRecord :=
  ⟨none, none, [], [],
   some ⟨some "Acme", some "https://logo.example/acme.png", none⟩⟩

/-- A location with a pre-existing coordinate and the `TBD` address. -/
def locPreCoords : Location := ⟨none, some "TBD", some ⟨some 1, some 2⟩, none, none⟩

/-- A record with a user-supplied hospital and a location that already
carries coordinates. -/
def recUserHospital : ProductionRecord :=
  ⟨none, some ⟨[locPreCoords], none, some ⟨"User Hospital", "1 Main St"⟩⟩, [], [], none⟩

/-- Like `recUserHospital` but with no hospital set yet. -/
def recPreCoordsOnly : ProductionRecord :=
  ⟨none, some ⟨[locPreCoords], none, none⟩, [], [], none⟩

/-- A record with one ordinary location and no coordinates anywhere. -/
def recOneAddress : ProductionRecord :=
  ⟨none, some ⟨[⟨some "Venice", some "Ocean Front Walk", none, none, none⟩], none, none⟩,
   [⟨some 1, some "2026-01-20", none, none, none⟩], [], none⟩

/-- An upstream geocoding failure. -/
def upGeoFail : String → GeoResponse := fun _ => .failure

/-- A forecast whose maximum temperature and wind speed are numerically
zero (and whose minimum temperature is 70). -/
def fcZero : Forecast :=
  ⟨some (.dictDate (some 2026) (some 1) (some 20)), none, .num 0, .num 70,
   .absent, .absent, none, .absent, .nondict, .dict (some 0)⟩

def wdataZero : WeatherData := ⟨some [fcZero], none, .absent⟩

/-- Trivial stand-ins for the datetime helpers. -/
def pitNone : Option String → Option String → String := fun _ _ => ""

def fhmZero : Int → Int → String := fun _ _ => "12:00 AM"

def pdJan : String → Option Int := fun s => if s = "2026-01-20" then some 5 else none

/-- The weather dict computed from `fcZero`. -/
def weatherZeroResult : Weather :=
  ⟨"2026-01-20", "", "", ⟨"TBD", "70F"⟩, some "Unknown", "TBD"⟩

/-! ## A canonical JSON document family

To settle how the repair behaves on *valid* JSON, documents are represented
syntactically and printed canonically (`", "` between items, `": "` after a
key, no surrounding whitespace) — the shape `json.dumps` produces.  The
`clean` predicates single out documents whose strings need no escaping;
the counterexample shows the repair corrupting a document outside that
family. -/

mutual

inductive JVal where
  | jnull : JVal
  | jbool : Bool → JVal
  | jnum : Int → JVal
  | jstr : String → JVal
  | jarr : JArr → JVal
  | jobj : JObj → JVal

inductive JArr where
  | anil : JArr
  | acons : JVal → JArr → JArr

inductive JObj where
  | onil : JObj
  | ocons : String → JVal → JObj → JObj

end

def digitChar (d : Nat) : Char :=
  if d = 0 then '0' else if d = 1 then '1' else if d = 2 then '2'
  else if d = 3 then '3' else if d = 4 then '4' else if d = 5 then '5'
  else if d = 6 then '6' else if d = 7 then '7' else if d = 8 then '8' else '9'

def digitList : List Char := ['0', '1', '2', '3', '4', '5', '6', '7', '8', '9']

/-- Decimal digits of `n`, most significant first (fuel-based so it reduces
in the kernel). -/
def natDigitsAux : Nat → Nat → List Char
  | 0, _ => []
  | fuel + 1, n =>
    if n < 10 then [digitChar n]
    else natDigitsAux fuel (n / 10) ++ [digitChar (n % 10)]

def natDigits (n : Nat) : List Char := natDigitsAux (n + 1) n

def numChars (n : Int) : List Char :=
  if n < 0 then '-' :: natDigits n.natAbs else natDigits n.natAbs

mutual

def printV : JVal → List Char
  | .jnull => "null".data
  | .jbool true => "true".data
  | .jbool false => "false".data
  | .jnum n => numChars n
  | .jstr s => '"' :: s.data ++ ['"']
  | .jarr a => '[' :: (printA a ++ [']'])
  | .jobj o => '\x7b' :: (printO o ++ ['\x7d'])

def printA : JArr → List Char
  | .anil => []
  | .acons v t => printV v ++ printARest t

def printARest : JArr → List Char
  | .anil => []
  | .acons v t => ',' :: ' ' :: (printV v ++ printARest t)

def printO : JObj → List Char
  | .onil => []
  | .ocons k v t => '"' :: k.data ++ '"' :: ':' :: ' ' :: (printV v ++ printORest t)

def printORest : JObj → List Char
  | .onil => []
  | .ocons k v t =>
    ',' :: ' ' :: ('"' :: k.data ++ '"' :: ':' :: ' ' :: (printV v ++ printORest t))

end

/-- A character that may sit inside a printed string literal without
disturbing either scan: not a quote and not a backslash. -/
def stringSafe (c : Char) : Bool := !(c = '"') && !(c = '\\')

mutual

def cleanV : JVal → Bool
  | .jnull => true
  | .jbool _ => true
  | .jnum _ => true
  | .jstr s => s.data.all stringSafe
  | .jarr a => cleanA a
  | .jobj o => cleanO o

def cleanA : JArr → Bool
  | .anil => true
  | .acons v t => cleanV v && cleanA t

def cleanO : JObj → Bool
  | .onil => true
  | .ocons k v t => k.data.all stringSafe && cleanV v && cleanO t

end

/-- Characters the scans treat as inert outside strings: not a quote, not a
backslash, not a brace or bracket. -/
def neutralChar (c : Char) : Bool :=
  !(c = '"') && !(c = '\\') && !(c = '\x7b') && !(c = '\x7d') &&
  !(c = '[') && !(c = ']')

/-- A character that may legitimately end a printed document: not
whitespace, not a colon, not a comma. -/
def goodEnd (c : Char) : Bool := !(isPySpace c) && !(c = ':') && !(c = ',')

/-- Field-wise preservation of a location: user fields unchanged, optional
enrichment slots never cleared. -/
def locPreserves (l l2 : Location) : Prop :=
  l2.name = l.name ∧ l2.address = l.address ∧ l2.parking_notes = l.parking_notes ∧
  l.coordinates.isSome ≤ l2.coordinates.isSome ∧
  l.formatted_address.isSome ≤ l2.formatted_address.isSome

def dayPreserves (d d2 : ScheduleDay) : Prop :=
  d2.day_number = d.day_number ∧ d2.date = d.date ∧
  d2.crew_call_time = d.crew_call_time ∧ d2.talent_call_time = d.talent_call_time ∧
  d.weather.isSome ≤ d2.weather.isSome

def logisticsPreserves (lg lg2 : Logistics) : Prop :=
  List.Forall₂ locPreserves lg.locations lg2.locations ∧
  lg.weather.isSome ≤ lg2.weather.isSome ∧
  lg.hospital.isSome ≤ lg2.hospital.isSome

def optionRel {α : Type} (P : α → α → Prop) : Option α → Option α → Prop
  | none, none => True
  | some a, some b => P a b
  | _, _ => False

/-! ## Lemma toolkit for the repair pipeline -/

theorem pyRstripL_nil : pyRstripL [] = [] := rfl

theorem pyRstripL_eq_self (cs : List Char) (c : Char) (hlast : cs.getLast? = some c)
    (hc : isPySpace c = false) : pyRstripL cs = cs := by
  have h1 : cs.reverse.head? = some c := by
    rw [List.head?_reverse, hlast]
  cases hrev : cs.reverse with
  | nil => simp [hrev] at h1
  | cons a t =>
    rw [hrev] at h1
    have ha : a = c := by simpa using h1
    subst ha
    have : cs = (a :: t).reverse := by
      rw [← hrev, List.reverse_reverse]
    rw [pyRstripL, hrev, List.dropWhile_cons, hc]
    simpa using this.symm

theorem stripTrailingComma_eq_self (cs : List Char) (c : Char)
    (hlast : cs.getLast? = some c) (hsp : isPySpace c = false)
    (hcomma : (c = ',') = False) : stripTrailingComma cs = cs := by
  rw [stripTrailingComma]
  simp only [pyRstripL_eq_self cs c hlast hsp, hlast]
  simp [hcomma]

theorem getLast?_append_nonnil (a b : List Char) (hb : b ≠ []) :
    (a ++ b).getLast? = b.getLast? := by
  cases b with
  | nil => exact absurd rfl hb
  | cons x xs => rw [List.getLast?_append_cons, List.getLast?_cons]

theorem getLast?_replicate_cons (n : Nat) (x y : Char) :
    (y :: List.replicate (n + 1) x).getLast? = some x := by
  induction n with
  | zero => rfl
  | succ k ih =>
    rw [List.replicate_succ]
    rw [List.getLast?_cons_cons]
    exact ih

/-- The characters appended by the closing pass end in a closer (or there
are none). -/
theorem closeChars_last (b1 b2 : Nat) :
    closeChars b1 b2 = [] ∨
    ∃ c, (closeChars b1 b2).getLast? = some c ∧ (c = '\x7d' ∨ c = ']') := by
  rw [closeChars]
  rcases b2 with _ | k2
  · rcases b1 with _ | k1
    · left; simp
    · right
      refine ⟨'\x7d', ?_, Or.inl rfl⟩
      rw [if_pos (Nat.succ_pos k1), if_neg (by omega : ¬ (0 < 0)), List.append_nil]
      exact getLast?_replicate_cons k1 '\x7d' '\n'
  · right
    refine ⟨']', ?_, Or.inr rfl⟩
    rw [if_pos (Nat.succ_pos k2)]
    rcases b1 with _ | k1
    · rw [if_neg (by omega : ¬ (0 < 0)), List.nil_append]
      exact getLast?_replicate_cons k2 ']' '\n'
    · rw [if_pos (Nat.succ_pos k1), getLast?_append_nonnil _ _ (by simp)]
      exact getLast?_replicate_cons k2 ']' '\n'

theorem pyStripL_nil : pyStripL [] = [] := rfl

/-! ## Claim theorems: the JSON repair -/

/-- Claim C1: the spec contract says `parse(repair(text))` succeeds for any
truncation of a well-formed JSON document inside a well-formed prefix.  The
code fails it: on the 8-character prefix of the valid document
`\x7b"a": "x y"\x7d` the backward depth scan stops at the unmatched opening
brace without counting it, so no closing brace is appended and the repaired
text is not valid JSON. -/
theorem claim_C1 :
    jsonValid "\x7b\"a\": \"x y\"\x7d" = true ∧
    "\x7b\"a\": \"x y\"\x7d".data.take 8 = "\x7b\"a\": \"x".data ∧
    repairTruncatedJson "\x7b\"a\": \"x" = "\x7b\"a\": \"x\"" ∧
    jsonValid (repairTruncatedJson "\x7b\"a\": \"x") = false := by decide

/-- Claim C5 counterexample: the claim says no value is inserted after a
dangling colon, but on input `\x7b"key":` the repair function appends `null`. -/
theorem claim_C5_cx :
    repairTruncatedJson "\x7b\"key\":" = "\x7b\"key\":null" := by decide

/-- Claim C5 (amended): for every input whose stripped text ends in a
dangling colon (with the forward scan not inside a string), the repair
appends the value `null` right after the colon and then the generic closing
pass: the dangling colon is specially defended. -/
theorem claim_C5 (s : String)
    (h1 : (fwdScan (pyStripL s.data)).inString = false)
    (h2 : (pyStripL s.data).getLast? = some ':')
    (h3 : 2 ≤ (pyStripL s.data).length) :
    (repairTruncatedJson s).data =
      pyStripL s.data ++ "null".data ++
        closeChars (bwdScan (pyStripL s.data).reverse ⟨0, 0, false⟩).endBrace
                   (bwdScan (pyStripL s.data).reverse ⟨0, 0, false⟩).endBracket := by
  have hsp : isPySpace ':' = false := by decide
  have hrstrip : pyRstripL (pyStripL s.data) = pyStripL s.data :=
    pyRstripL_eq_self _ ':' h2 hsp
  have hrev : ∃ r, (pyStripL s.data).reverse = ':' :: r ∧ r ≠ [] := by
    have h1r : (pyStripL s.data).reverse.head? = some ':' := by
      rw [List.head?_reverse, h2]
    cases hr : (pyStripL s.data).reverse with
    | nil => simp [hr] at h1r
    | cons a t =>
      rw [hr] at h1r
      have ha : a = ':' := by simpa using h1r
      subst ha
      refine ⟨t, rfl, ?_⟩
      intro ht
      subst ht
      have : (pyStripL s.data).length = 1 := by
        have h4 := congrArg List.length hr
        simpa using h4
      omega
  obtain ⟨r, hr, hrne⟩ := hrev
  have hdw : ((pyStripL s.data).reverse.dropWhile (fun c => !(c = ':'))) = ':' :: r := by
    rw [hr, List.dropWhile_cons]
    simp
  have htw : ((pyStripL s.data).reverse.takeWhile (fun c => !(c = ':'))) = [] := by
    rw [hr, List.takeWhile_cons]
    simp
  have hcolon : colonDefense false (pyStripL s.data) =
      pyStripL s.data ++ "null".data := by
    rw [colonDefense]
    simp only [hdw, htw, List.reverse_nil, pyStripL_nil]
    simp [hrne]
  have hnull : (pyStripL s.data ++ "null".data).getLast? = some 'l' := by
    rw [getLast?_append_nonnil _ _ (by simp : ("null".data : List Char) ≠ [])]
    rfl
  have hstc : stripTrailingComma (pyStripL s.data ++ "null".data) =
      pyStripL s.data ++ "null".data :=
    stripTrailingComma_eq_self _ 'l' hnull (by decide) (by simp)
  rw [repairTruncatedJson]
  simp only [h1, Bool.false_eq_true, if_false, hrstrip, hcolon, hstc]
  set b := bwdScan (pyStripL s.data).reverse ⟨0, 0, false⟩ with hb
  rcases closeChars_last b.endBrace b.endBracket with hcc | ⟨c, hcl, hc⟩
  · rw [hcc, List.append_nil]
    rw [stripTrailingComma_eq_self _ 'l' hnull (by decide) (by simp)]
  · have hccne : closeChars b.endBrace b.endBracket ≠ [] := by
      intro h0
      rw [h0] at hcl
      simp at hcl
    have hlast2 : (pyStripL s.data ++ "null".data ++
        closeChars b.endBrace b.endBracket).getLast? = some c := by
      rw [getLast?_append_nonnil _ _ hccne, hcl]
    rw [stripTrailingComma_eq_self _ c hlast2
      (by rcases hc with h | h <;> subst h <;> decide)
      (by rcases hc with h | h <;> subst h <;> simp)]

/-- Claim C5 witness: the amended statement at the concrete input
`\x7b"key":`. -/
theorem claim_C5_witness :
    (repairTruncatedJson "\x7b\"key\":").data =
      pyStripL "\x7b\"key\":".data ++ "null".data ++
        closeChars (bwdScan (pyStripL "\x7b\"key\":".data).reverse ⟨0, 0, false⟩).endBrace
                   (bwdScan (pyStripL "\x7b\"key\":".data).reverse ⟨0, 0, false⟩).endBracket :=
  claim_C5 "\x7b\"key\":" (by decide) (by decide) (by decide)

/-- Claim C4 counterexample: the valid JSON document `["\x7b\\""]` (an array
holding the two-character string `\x7b"`) is corrupted by the repair: the
escaped quote desynchronises the backward scan, a spurious `]` is appended,
and the output no longer parses. -/
theorem claim_C4_cx :
    jsonValid "[\"\x7b\\\"\"]" = true ∧
    repairTruncatedJson "[\"\x7b\\\"\"]" = "[\"\x7b\\\"\"]\n]" ∧
    jsonValid (repairTruncatedJson "[\"\x7b\\\"\"]") = false := by decide

/-! ## Claim theorems: department normalization and hospital selection -/

theorem find?_congr_pred {α : Type} (l : List α) (p q : α → Bool)
    (h : ∀ a, p a = q a) : l.find? p = l.find? q := by
  induction l with
  | nil => rfl
  | cons x xs ih =>
    rw [List.find?_cons, List.find?_cons, h x]
    cases q x <;> simp [ih]

/-- Every value of the normalization table is in the department enum. -/
theorem departmentMapValues :
    ∀ p ∈ DEPARTMENT_NORMALIZE_MAP, p.2 ∈ departmentEnum := by decide

/-- Claim C7: `normalize_department` is total into the fixed enum, with
`OTHER` as default; `G&E` goes to `GRIP_ELECTRIC` and unrecognized input to
`OTHER`. -/
theorem claim_C7 :
    (∀ d : Option String, normalize_department d ∈ departmentEnum) ∧
    normalize_department (some "G&E") = "GRIP_ELECTRIC" ∧
    normalize_department (some "unknown-xyz") = "OTHER" ∧
    normalize_department none = "OTHER" ∧
    normalize_department (some "") = "OTHER" := by
  refine ⟨?_, by decide, by decide, by decide, by decide⟩
  intro d
  cases d with
  | none => decide
  | some str =>
    rw [normalize_department]
    by_cases hs : str = ""
    · rw [if_pos hs]
      decide
    · rw [if_neg hs]
      cases hf : DEPARTMENT_NORMALIZE_MAP.find? (fun p => p.1 == pyStrip (pyUpper str)) with
      | none => decide
      | some pr => simpa using departmentMapValues pr (List.mem_of_find?_eq_some hf)

/-- Claim C8: on a non-empty `OK` result list the hospital search selects,
in order of preference, the first result matching a hospital keyword and no
clinic keyword, then the first non-clinic result, then the first result;
`ZERO_RESULTS` yields no result; and on the Venice scenario the second
result, "Marina Medical Center Emergency", is selected over the clinic that
comes first. -/
theorem claim_C8 :
    (∀ (k : String) (la ln : ℚ) (rs : List PlaceResult), rs ≠ [] →
        find_nearest_hospital (.payload "OK" rs) (some k) (some la) (some ln) =
          (selectHospitalSpec rs).map mkHospital) ∧
    (∀ (k : String) (la ln : ℚ) (rs : List PlaceResult),
        find_nearest_hospital (.payload "ZERO_RESULTS" rs) (some k) (some la)
          (some ln) = none) ∧
    find_nearest_hospital (.payload "OK" veniceResults) (some "key") (some 34)
        (some (-118)) = some ⟨"Marina Medical Center Emergency", "B St"⟩ := by
  refine ⟨?_, ?_, by decide⟩
  · intro k la ln rs hne
    cases rs with
    | nil => exact absurd rfl hne
    | cons x xs =>
      simp only [find_nearest_hospital, selectHospitalSpec]
      rw [find?_congr_pred (x :: xs)
        (fun r => !(kwAny clinic_keywords (placeNameLower r)) &&
          kwAny hospital_keywords (placeNameLower r))
        (fun r => kwAny hospital_keywords (placeNameLower r) &&
          !(kwAny clinic_keywords (placeNameLower r)))
        (fun a => Bool.and_comm _ _)]
      simp only [if_true]
      cases h1 : (x :: xs).find? (fun r =>
          kwAny hospital_keywords (placeNameLower r) &&
          !(kwAny clinic_keywords (placeNameLower r))) with
      | some r => simp [Option.orElse]
      | none =>
        cases h2 : (x :: xs).find? (fun r =>
            !(kwAny clinic_keywords (placeNameLower r))) with
        | some r => simp [Option.orElse]
        | none => simp [Option.orElse]
  · intro k la ln rs
    simp [find_nearest_hospital]

/-- Claim C8 witness: the general selection rule applied to the Venice
scenario. -/
theorem claim_C8_witness :
    find_nearest_hospital (.payload "OK" veniceResults) (some "key") (some 34)
        (some (-118)) = (selectHospitalSpec veniceResults).map mkHospital :=
  claim_C8.1 "key" 34 (-118) veniceResults (by decide)

/-! ## Claim theorems: cache discipline of the geocode and weather clients -/

/-- Either the geocode cache is unchanged, or the call succeeded and exactly
its result was added. -/
theorem geo_cases (up : String → GeoResponse) (key : Option String)
    (cache : List (String × GeoCoords)) (addr : String) :
    ((get_location_coordinates up key cache addr).2.1 = cache) ∨
    (∃ k c, (get_location_coordinates up key cache addr).1 = some c ∧
      (get_location_coordinates up key cache addr).2.1 = (k, c) :: cache ∧
      (get_location_coordinates up key cache addr).2.2 = true) := by
  rw [get_location_coordinates]
  split
  · exact Or.inl rfl
  · dsimp only
    split
    · exact Or.inl rfl
    · split
      · exact Or.inl rfl
      · split
        · exact Or.inl rfl
        · split
          · split
            · exact Or.inr ⟨_, _, rfl, rfl, rfl⟩
            · exact Or.inl rfl
          · exact Or.inl rfl

/-- A geocode call that returns no result leaves the cache unchanged. -/
theorem geo_none_cache (up : String → GeoResponse) (key : Option String)
    (cache : List (String × GeoCoords)) (addr : String)
    (h : (get_location_coordinates up key cache addr).1 = none) :
    (get_location_coordinates up key cache addr).2.1 = cache := by
  rcases geo_cases up key cache addr with hc | ⟨k, c, hc1, _, _⟩
  · exact hc
  · rw [h] at hc1
    exact Option.noConfusion hc1

/-- With a valid address, a cache miss and a configured key, the upstream
request is issued (so an uncached failure is retried, not served from the
cache). -/
theorem geo_consults (up : String → GeoResponse) (key0 : Option String)
    (cache : List (String × GeoCoords)) (addr : String)
    (h1a : addr ≠ "") (h1b : pyUpper addr ≠ "TBD")
    (h2 : cache.find? (fun p => p.1 == pyStrip (pyLower addr)) = none)
    (h3 : key0 ≠ (none : Option String)) :
    (get_location_coordinates up key0 cache addr).2.2 = true := by
  rw [get_location_coordinates, if_neg (by simp [h1a, h1b])]
  dsimp only
  rw [h2]
  simp only [Option.map_none']
  cases key0 with
  | none => exact absurd rfl h3
  | some k =>
    cases up addr with
    | failure => rfl
    | payload status results =>
      dsimp only
      split
      · cases results <;> rfl
      · rfl

/-- Either the weather cache is unchanged, or the call succeeded and exactly
its result was added. -/
theorem wx_cases (pd : String → Option Int) (today : Int) (up : WeatherResponse)
    (key : Option String) (pit : Option String → Option String → String)
    (fhm : Int → Int → String) (cache : List ((ℚ × ℚ × String) × Weather))
    (lat lng : Option ℚ) (date : String) :
    ((get_weather_data pd today up key pit fhm cache lat lng date).2.1 = cache) ∨
    (∃ k w, (get_weather_data pd today up key pit fhm cache lat lng date).1 = some w ∧
      (get_weather_data pd today up key pit fhm cache lat lng date).2.1 = (k, w) :: cache ∧
      (get_weather_data pd today up key pit fhm cache lat lng date).2.2 = true) := by
  rw [get_weather_data.eq_def]
  repeat' split
  all_goals try dsimp only
  repeat' split
  all_goals first
    | exact Or.inl rfl
    | exact Or.inr ⟨_, _, rfl, rfl, rfl⟩

/-- A weather call that returns no result leaves the cache unchanged. -/
theorem wx_none_cache (pd : String → Option Int) (today : Int) (up : WeatherResponse)
    (key : Option String) (pit : Option String → Option String → String)
    (fhm : Int → Int → String) (cache : List ((ℚ × ℚ × String) × Weather))
    (lat lng : Option ℚ) (date : String)
    (h : (get_weather_data pd today up key pit fhm cache lat lng date).1 = none) :
    (get_weather_data pd today up key pit fhm cache lat lng date).2.1 = cache := by
  rcases wx_cases pd today up key pit fhm cache lat lng date with hc | ⟨k, w, hc1, _, _⟩
  · exact hc
  · rw [h] at hc1
    exact Option.noConfusion hc1

/-- With valid coordinates, a configured key, a cache miss, a parsable date
and a date within the forecast horizon, the upstream request is issued. -/
theorem wx_consults (pd : String → Option Int) (today : Int) (up : WeatherResponse)
    (key0 : Option String) (pit : Option String → Option String → String)
    (fhm : Int → Int → String) (cache : List ((ℚ × ℚ × String) × Weather))
    (la ln : ℚ) (date : String) (t : Int)
    (hla1 : (-90 : ℚ) ≤ la) (hla2 : la ≤ 90)
    (hln1 : (-180 : ℚ) ≤ ln) (hln2 : ln ≤ 180)
    (h3 : key0 ≠ (none : Option String))
    (h2 : cache.find? (fun p => p.1 == (round2 la, round2 ln, date)) = none)
    (hpd : pd date = some t)
    (hd1 : 0 ≤ t - today) (hd2 : t - today ≤ 10) :
    (get_weather_data pd today up key0 pit fhm cache (some la) (some ln) date).2.2 = true := by
  rw [get_weather_data.eq_def]
  dsimp only
  rw [if_neg (by simp [hla1, hla2, hln1, hln2])]
  cases key0 with
  | none => exact absurd rfl h3
  | some k =>
    dsimp only
    rw [h2]
    simp only [Option.map_none']
    rw [hpd]
    dsimp only
    rw [if_neg (by omega), if_neg (by omega), if_pos (by simp [hd1, hd2])]
    cases up with
    | failure => rfl
    | payload data =>
      dsimp only
      cases hfc : pyOrForecasts data with
      | nil => rfl
      | cons f fs =>
        dsimp only
        cases htf : targetForecast data date with
        | none => rfl
        | some f0 =>
          dsimp only
          split <;> rfl

/-- Claim C9: the geocode and weather memo caches only ever receive
successful lookup results: a call that returns no result leaves its cache
unchanged, every cache change is the appended result of a successful call,
and a call whose key is not cached (and passes the input checks) consults
the upstream rather than returning a cached failure. -/
theorem claim_C9 :
    (∀ up key cache addr, (get_location_coordinates up key cache addr).1 = none →
      (get_location_coordinates up key cache addr).2.1 = cache) ∧
    (∀ up key cache addr,
      ((get_location_coordinates up key cache addr).2.1 = cache) ∨
      (∃ k c, (get_location_coordinates up key cache addr).1 = some c ∧
        (get_location_coordinates up key cache addr).2.1 = (k, c) :: cache ∧
        (get_location_coordinates up key cache addr).2.2 = true)) ∧
    (∀ up key0 cache addr, addr ≠ "" → pyUpper addr ≠ "TBD" →
      cache.find? (fun p => p.1 == pyStrip (pyLower addr)) = none →
      key0 ≠ (none : Option String) →
      (get_location_coordinates up key0 cache addr).2.2 = true) ∧
    (∀ pd today up key pit fhm cache lat lng date,
      (get_weather_data pd today up key pit fhm cache lat lng date).1 = none →
      (get_weather_data pd today up key pit fhm cache lat lng date).2.1 = cache) ∧
    (∀ pd today up key pit fhm cache lat lng date,
      ((get_weather_data pd today up key pit fhm cache lat lng date).2.1 = cache) ∨
      (∃ k w, (get_weather_data pd today up key pit fhm cache lat lng date).1 = some w ∧
        (get_weather_data pd today up key pit fhm cache lat lng date).2.1 = (k, w) :: cache ∧
        (get_weather_data pd today up key pit fhm cache lat lng date).2.2 = true)) ∧
    (∀ pd today up key0 pit fhm cache la ln date t,
      (-90 : ℚ) ≤ la → la ≤ 90 → (-180 : ℚ) ≤ ln → ln ≤ 180 →
      key0 ≠ (none : Option String) →
      cache.find? (fun p => p.1 == (round2 la, round2 ln, date)) = none →
      pd date = some t → 0 ≤ t - today → t - today ≤ 10 →
      (get_weather_data pd today up key0 pit fhm cache (some la) (some ln) date).2.2 = true) :=
  ⟨geo_none_cache, geo_cases,
   fun up key0 cache addr h1a h1b h2 h3 => geo_consults up key0 cache addr h1a h1b h2 h3,
   wx_none_cache, wx_cases,
   fun pd today up key0 pit fhm cache la ln date t hla1 hla2 hln1 hln2 h3 h2 hpd hd1 hd2 =>
     wx_consults pd today up key0 pit fhm cache la ln date t hla1 hla2 hln1 hln2 h3 h2 hpd hd1 hd2⟩

/-- Claim C9 witness: a failing geocode call and a failing weather call on
an empty cache leave it empty, and both consulted the upstream. -/
theorem claim_C9_witness :
    (get_location_coordinates upGeoFail (some "k") [] "123 Main St").2.1 = [] ∧
    (get_location_coordinates upGeoFail (some "k") [] "123 Main St").2.2 = true ∧
    (get_weather_data pdJan 0 .failure (some "k") pitNone fhmZero [] (some 34)
      (some (-118)) "2026-01-20").2.1 = [] ∧
    (get_weather_data pdJan 0 .failure (some "k") pitNone fhmZero [] (some 34)
      (some (-118)) "2026-01-20").2.2 = true :=
  ⟨claim_C9.1 upGeoFail (some "k") [] "123 Main St" (by decide),
   claim_C9.2.2.1 upGeoFail (some "k") [] "123 Main St" (by decide) (by decide)
     (by decide) (by decide),
   claim_C9.2.2.2.1 pdJan 0 .failure (some "k") pitNone fhmZero [] (some 34)
     (some (-118)) "2026-01-20" (by decide),
   claim_C9.2.2.2.2.2 pdJan 0 .failure (some "k") pitNone fhmZero [] 34 (-118)
     "2026-01-20" 5 (by decide) (by decide) (by decide) (by decide) (by decide)
     (by decide) (by decide) (by decide) (by decide)⟩

/-- Claim C10: when the target forecast's extracted maximum or minimum
temperature is numerically 0, or its wind speed is 0, a successful
`get_weather_data` call reports the `TBD` sentinel for that field, because
the formatting tests truthiness rather than presence. -/
theorem claim_C10 (pd : String → Option Int) (today : Int) (data : WeatherData)
    (key : Option String) (pit : Option String → Option String → String)
    (fhm : Int → Int → String) (cache : List ((ℚ × ℚ × String) × Weather))
    (lat lng : Option ℚ) (date : String) (f : Forecast) (w : Weather)
    (cache2 : List ((ℚ × ℚ × String) × Weather))
    (hf : targetForecast data date = some f)
    (hres : get_weather_data pd today (.payload data) key pit fhm cache lat lng date =
      (some w, cache2, true)) :
    (extractTempHigh f = some 0 → w.temperature.high = "TBD") ∧
    (extractTempLow f = some 0 → w.temperature.low = "TBD") ∧
    (extractWindSpeed f = some 0 → w.wind = "TBD") := by
  have hw : w = buildWeather pit fhm (tzIdOf data) date f := by
    rw [get_weather_data.eq_def] at hres
    repeat' split at hres
    all_goals try dsimp only at hres
    repeat' split at hres
    all_goals simp_all
  subst hw
  refine ⟨fun h0 => ?_, fun h0 => ?_, fun h0 => ?_⟩ <;>
    simp [buildWeather, fmtTemp, fmtWind, h0]

/-- Claim C10 witness: the forecast `fcZero` (max temperature 0, wind 0)
yields `TBD` in both fields. -/
theorem claim_C10_witness :
    weatherZeroResult.temperature.high = "TBD" ∧ weatherZeroResult.wind = "TBD" := by
  have h := claim_C10 pdJan 0 wdataZero (some "k") pitNone fhmZero []
    (some 34) (some (-118)) "2026-01-20" fcZero weatherZeroResult
    [((34, -118, "2026-01-20"), weatherZeroResult)] (by decide) (by decide)
  exact ⟨h.1 (by decide), h.2.2 (by decide)⟩

/-! ## Claim theorems: the enrichment orchestrator -/

theorem locPreserves_refl (l : Location) : locPreserves l l :=
  ⟨rfl, rfl, rfl, le_refl _, le_refl _⟩

theorem dayPreserves_refl (d : ScheduleDay) : dayPreserves d d :=
  ⟨rfl, rfl, rfl, rfl, le_refl _⟩

theorem forall2_enumFrom_map {α β : Type} (P : α → β → Prop) (g : Nat × α → β)
    (h : ∀ i a, P a (g (i, a))) :
    ∀ (l : List α) (n : Nat), List.Forall₂ P l ((List.enumFrom n l).map g)
  | [], _ => List.Forall₂.nil
  | x :: xs, n => by
    simp only [List.enumFrom, List.map_cons]
    exact List.Forall₂.cons (h n x) (forall2_enumFrom_map P g h xs (n + 1))

theorem forall2_map_self {α : Type} (P : α → α → Prop) (f : α → α)
    (h : ∀ a, P a (f a)) (l : List α) : List.Forall₂ P l (l.map f) := by
  induction l with
  | nil => exact List.Forall₂.nil
  | cons x xs ih => exact List.Forall₂.cons (h x) ih

theorem forall2_refl_of {α : Type} (P : α → α → Prop) (h : ∀ a, P a a)
    (l : List α) : List.Forall₂ P l l := by
  induction l with
  | nil => exact List.Forall₂.nil
  | cons x xs ih => exact List.Forall₂.cons (h x) ih

/-- Applying geocoding results only fills the `coordinates` and
`formatted_address` slots. -/
theorem applyCoords_preserves (locs : List Location) (res : List (Nat × GeoCoords)) :
    List.Forall₂ locPreserves locs (applyCoords locs res) := by
  rw [applyCoords, List.enum]
  refine forall2_enumFrom_map _ _ (fun i a => ?_) locs 0
  cases (res.find? (fun q => q.1 == i)).map Prod.snd with
  | none => exact locPreserves_refl a
  | some c => exact ⟨rfl, rfl, rfl, Bool.le_true _, Bool.le_true _⟩

/-- Applying weather results only fills the `weather` slot of a day. -/
theorem applyWeather_preserves (days : List ScheduleDay) (res : List (String × Weather)) :
    List.Forall₂ dayPreserves days (applyWeather days res) := by
  rw [applyWeather]
  refine forall2_map_self _ _ (fun d => ?_) days
  cases hd : d.date with
  | none => exact dayPreserves_refl d
  | some dt =>
    dsimp only
    split
    · cases wlookup res dt with
      | none => exact dayPreserves_refl d
      | some w => exact ⟨rfl, hd.symm, rfl, rfl, Bool.le_true _⟩
    · exact dayPreserves_refl d

/-- The weather phase returns the days unchanged or with weather applied. -/
theorem weatherPhase_days (env : EnrichEnv) (days : List ScheduleDay)
    (fd : Option String) (p : Option Coordinates) :
    (weatherPhaseOf env days fd p).1 = days ∨
    ∃ res, (weatherPhaseOf env days fd p).1 = applyWeather days res := by
  rw [weatherPhaseOf.eq_def]
  repeat' split
  all_goals try dsimp only
  repeat' split
  all_goals first
    | exact Or.inl rfl
    | exact Or.inr ⟨_, rfl⟩

/-- Claim C2 counterexample: a `client_info` section already present in the
input, with a non-null `logo_url`, is nulled out by the enrichment (the
section is unconditionally reinitialized). -/
theorem claim_C2_cx :
    recWithClientInfo.client_info.map ClientInfo.logo_url =
      some (some "https://logo.example/acme.png") ∧
    (enrich_production_data envAllNone recWithClientInfo).1.client_info.map
      ClientInfo.logo_url = some none := by decide

/-- Claim C2 (amended): outside `client_info`, the enrichment never removes
or nulls a field: production info and the crew list are unchanged, every
location keeps its user fields and never loses coordinates, logistics
weather/hospital and per-day weather are never cleared.  (`client_info`
itself is unconditionally reinitialized, as the counterexample shows.) -/
theorem claim_C2 (env : EnrichEnv) (r : ProductionRecord) :
    ((enrich_production_data env r).1.production_info = r.production_info) ∧
    ((enrich_production_data env r).1.crew_list = r.crew_list) ∧
    optionRel logisticsPreserves r.logistics (enrich_production_data env r).1.logistics ∧
    List.Forall₂ dayPreserves r.schedule_days (enrich_production_data env r).1.schedule_days := by
  refine ⟨rfl, rfl, ?_, ?_⟩
  · rw [enrich_production_data]
    dsimp only
    cases hl : r.logistics with
    | none =>
      rcases hh : (hospitalPhaseOf env (primaryCoords (enrichedLocations env r))).1 with _ | h <;>
        rcases hw : (weatherPhaseOf env r.schedule_days
          (r.schedule_days.head?.bind (fun d => d.date))
          (primaryCoords (enrichedLocations env r))).2.1 with _ | w <;>
        simp [optionRel]
    | some lg =>
      have hrl : enrichedLocations env r =
          applyCoords lg.locations (geocodeResults env (addressesToGeocode lg.locations)) := by
        simp [enrichedLocations, recLocations, hl]
      rcases hh : (hospitalPhaseOf env (primaryCoords (enrichedLocations env r))).1 with _ | h <;>
        rcases hw : (weatherPhaseOf env r.schedule_days
          (r.schedule_days.head?.bind (fun d => d.date))
          (primaryCoords (enrichedLocations env r))).2.1 with _ | w <;>
        dsimp only <;>
        exact ⟨by rw [hrl]; exact applyCoords_preserves _ _,
               by first | exact le_refl _ | exact Bool.le_true _,
               by first | exact le_refl _ | exact Bool.le_true _⟩
  · rw [enrich_production_data]
    dsimp only
    rcases weatherPhase_days env r.schedule_days
        (r.schedule_days.head?.bind (fun d => d.date))
        (primaryCoords (enrichedLocations env r)) with h | ⟨res, h⟩ <;> rw [h]
    · exact forall2_refl_of _ dayPreserves_refl _
    · exact applyWeather_preserves _ _

/-- Claim C3 counterexample: a user-supplied `logistics.hospital` is
overwritten by the lookup result (the code never checks the current value
before writing). -/
theorem claim_C3_cx :
    recUserHospital.logistics.map Logistics.hospital =
      some (some ⟨"User Hospital", "1 Main St"⟩) ∧
    (enrich_production_data envHospOnly recUserHospital).1.logistics.map
      Logistics.hospital = some (some ⟨"API Hospital", "2 Api St"⟩) ∧
    (enrich_production_data envHospOnly recUserHospital).2.hospitalCalls = [(1, 2)] := by
  decide

/-- Claim C3 (amended): when a primary coordinate with `lat`/`lng` exists,
`find_nearest_hospital` is called exactly once, and its result is written
onto `logistics.hospital` unconditionally whenever the lookup returns a
result — including over a user-supplied value; only a failed lookup leaves
the field unchanged. -/
theorem claim_C3 (env : EnrichEnv) (r : ProductionRecord) (pc : Coordinates)
    (la ln : ℚ) (hp : primaryCoords (enrichedLocations env r) = some pc)
    (hla : pc.lat = some la) (hln : pc.lng = some ln) :
    (enrich_production_data env r).2.hospitalCalls = [(la, ln)] ∧
    ((enrich_production_data env r).1.logistics.map Logistics.hospital =
      match env.hospital la ln with
      | some h => r.logistics.map (fun _ => some h)
      | none => r.logistics.map Logistics.hospital) := by
  have hph : hospitalPhaseOf env (primaryCoords (enrichedLocations env r)) =
      (env.hospital la ln, [(la, ln)]) := by
    rw [hp, hospitalPhaseOf]
    try dsimp only
    rw [hla, hln]
  constructor
  · rw [enrich_production_data]
    dsimp only
    rw [hph]
  · rw [enrich_production_data]
    dsimp only
    rw [hph]
    try dsimp only
    rcases hh : env.hospital la ln with _ | h <;>
      rcases hw : (weatherPhaseOf env r.schedule_days
        (r.schedule_days.head?.bind (fun d => d.date))
        (primaryCoords (enrichedLocations env r))).2.1 with _ | w <;>
      dsimp only <;>
      cases r.logistics <;> rfl

/-- Claim C3 witness: the amended statement on a record whose location
already carries coordinates `(1, 2)` and a user-supplied hospital. -/
theorem claim_C3_witness :
    (enrich_production_data envHospOnly recUserHospital).2.hospitalCalls = [(1, 2)] ∧
    ((enrich_production_data envHospOnly recUserHospital).1.logistics.map
        Logistics.hospital =
      match envHospOnly.hospital 1 2 with
      | some h => recUserHospital.logistics.map (fun _ => some h)
      | none => recUserHospital.logistics.map Logistics.hospital) :=
  claim_C3 envHospOnly recUserHospital ⟨some 1, some 2⟩ 1 2 (by decide) (by decide)
    (by decide)

theorem geocodeResults_eq_nil (env : EnrichEnv) (addrs : List (Nat × String))
    (h : ∀ p ∈ addrs, env.geocode p.2 = none) : geocodeResults env addrs = [] := by
  rw [geocodeResults, List.filterMap_eq_nil_iff]
  intro p hp
  rw [h p hp]
  rfl

theorem applyCoords_nilres (locs : List Location) : applyCoords locs [] = locs := by
  rw [applyCoords]
  simp only [List.find?_nil, Option.map_none']
  simp [List.enum_map_snd]

theorem primaryCoords_eq_none (locs : List Location)
    (h : ∀ loc ∈ locs, loc.coordinates = none) : primaryCoords locs = none := by
  rw [primaryCoords, List.findSome?_eq_none_iff]
  exact h

/-- Claim C6 counterexample: the record `recPreCoordsOnly` has zero
geocodable locations in the claim's sense (its only address is the `TBD`
sentinel), yet because the location already carries coordinates the
hospital lookup is attempted and `logistics.hospital` changes. -/
theorem claim_C6_cx :
    addressesToGeocode (recLocations recPreCoordsOnly) = [] ∧
    (enrich_production_data envHospOnly recPreCoordsOnly).2.hospitalCalls = [(1, 2)] ∧
    recPreCoordsOnly.logistics.map Logistics.hospital = some none ∧
    (enrich_production_data envHospOnly recPreCoordsOnly).1.logistics.map
      Logistics.hospital = some (some ⟨"API Hospital", "2 Api St"⟩) := by decide

/-- Claim C6 (amended): when no submitted address geocodes successfully and
no location already carries coordinates, the enrichment leaves
`logistics.weather` and `logistics.hospital` unchanged and attempts no
weather or hospital lookup. -/
theorem claim_C6 (env : EnrichEnv) (r : ProductionRecord)
    (hng : ∀ p ∈ addressesToGeocode (recLocations r), env.geocode p.2 = none)
    (hnc : ∀ loc ∈ recLocations r, loc.coordinates = none) :
    (enrich_production_data env r).1.logistics.map Logistics.weather =
      r.logistics.map Logistics.weather ∧
    (enrich_production_data env r).1.logistics.map Logistics.hospital =
      r.logistics.map Logistics.hospital ∧
    (enrich_production_data env r).2.weatherCalls = [] ∧
    (enrich_production_data env r).2.hospitalCalls = [] := by
  have hloc : enrichedLocations env r = recLocations r := by
    rw [enrichedLocations, geocodeResults_eq_nil env _ hng, applyCoords_nilres]
  have hprim : primaryCoords (enrichedLocations env r) = none := by
    rw [hloc]
    exact primaryCoords_eq_none _ hnc
  have hwp : weatherPhaseOf env r.schedule_days
      (r.schedule_days.head?.bind (fun d => d.date))
      (primaryCoords (enrichedLocations env r)) = (r.schedule_days, none, []) := by
    rw [hprim, weatherPhaseOf.eq_def]
  have hhp : hospitalPhaseOf env (primaryCoords (enrichedLocations env r)) =
      (none, []) := by
    rw [hprim]
    rfl
  refine ⟨?_, ?_, ?_, ?_⟩ <;>
    (rw [enrich_production_data]; dsimp only; simp only [hwp, hhp]; try dsimp only) <;>
    (try cases r.logistics) <;> rfl

/-- Claim C6 witness: a record with one real address, a failing geocoder,
and no pre-existing coordinates: weather and hospital stay untouched and no
lookups are attempted. -/
theorem claim_C6_witness :
    (enrich_production_data envAllNone recOneAddress).1.logistics.map
      Logistics.weather = recOneAddress.logistics.map Logistics.weather ∧
    (enrich_production_data envAllNone recOneAddress).1.logistics.map
      Logistics.hospital = recOneAddress.logistics.map Logistics.hospital ∧
    (enrich_production_data envAllNone recOneAddress).2.weatherCalls = [] ∧
    (enrich_production_data envAllNone recOneAddress).2.hospitalCalls = [] :=
  claim_C6 envAllNone recOneAddress (by decide) (by decide)

/-! ## Character facts about the canonical printer -/

theorem digitChar_mem (d : Nat) : digitChar d ∈ digitList := by
  unfold digitChar
  repeat' split
  all_goals decide

theorem natDigitsAux_mem (fuel : Nat) :
    ∀ (n : Nat), ∀ c ∈ natDigitsAux fuel n, c ∈ digitList := by
  induction fuel with
  | zero => intro n c hc; cases hc
  | succ k ih =>
    intro n c hc
    rw [natDigitsAux] at hc
    split at hc
    · rw [List.mem_singleton] at hc
      subst hc
      exact digitChar_mem n
    · rcases List.mem_append.mp hc with h | h
      · exact ih _ c h
      · rw [List.mem_singleton] at h
        subst h
        exact digitChar_mem _

theorem natDigitsAux_ne_nil (fuel n : Nat) (h : 0 < fuel) : natDigitsAux fuel n ≠ [] := by
  cases fuel with
  | zero => omega
  | succ k =>
    rw [natDigitsAux]
    split
    · simp
    · simp

theorem numChars_mem (n : Int) : ∀ c ∈ numChars n, c ∈ '-' :: digitList := by
  intro c hc
  rw [numChars] at hc
  split at hc
  · rcases List.mem_cons.mp hc with h | h
    · subst h
      exact List.mem_cons_self _ _
    · exact List.mem_cons_of_mem _ (natDigitsAux_mem _ _ c h)
  · exact List.mem_cons_of_mem _ (natDigitsAux_mem _ _ c hc)

theorem numChars_ne_nil (n : Int) : numChars n ≠ [] := by
  rw [numChars]
  split
  · simp
  · exact natDigitsAux_ne_nil _ _ (Nat.succ_pos _)

theorem numlist_good : ∀ c ∈ '-' :: digitList,
    goodEnd c = true ∧ neutralChar c = true ∧ stringSafe c = true := by decide

theorem exists_head_mem {l : List Char} (h : l ≠ []) :
    ∃ c, l.head? = some c ∧ c ∈ l := by
  cases l with
  | nil => exact absurd rfl h
  | cons x xs => exact ⟨x, rfl, List.mem_cons_self x xs⟩

theorem exists_getLast_mem {l : List Char} (h : l ≠ []) :
    ∃ c, l.getLast? = some c ∧ c ∈ l := by
  induction l with
  | nil => exact absurd rfl h
  | cons x xs ih =>
    cases hx : xs with
    | nil => exact ⟨x, rfl, by simp⟩
    | cons y ys =>
      obtain ⟨c, hc, hm⟩ := ih (by simp [hx])
      subst hx
      exact ⟨c, by rw [List.getLast?_cons_cons]; exact hc, List.mem_cons_of_mem _ hm⟩

theorem printV_ne_nil (v : JVal) : printV v ≠ [] := by
  cases v with
  | jnull => decide
  | jbool b => cases b <;> decide
  | jnum n => rw [printV]; exact numChars_ne_nil n
  | jstr s => simp [printV]
  | jarr a => simp [printV]
  | jobj o => simp [printV]

theorem printV_head (v : JVal) :
    ∃ c, (printV v).head? = some c ∧ goodEnd c = true := by
  cases v with
  | jnull => exact ⟨'n', rfl, by decide⟩
  | jbool b =>
    cases b with
    | true => exact ⟨'t', rfl, by decide⟩
    | false => exact ⟨'f', rfl, by decide⟩
  | jnum n =>
    obtain ⟨c, hc, hm⟩ := exists_head_mem (numChars_ne_nil n)
    exact ⟨c, hc, (numlist_good c (numChars_mem n c hm)).1⟩
  | jstr s => exact ⟨'"', rfl, by decide⟩
  | jarr a => exact ⟨'[', rfl, by decide⟩
  | jobj o => exact ⟨'\x7b', rfl, by decide⟩

theorem printV_last (v : JVal) :
    ∃ c, (printV v).getLast? = some c ∧ goodEnd c = true := by
  cases v with
  | jnull => exact ⟨'l', by decide, by decide⟩
  | jbool b =>
    cases b with
    | true => exact ⟨'e', by decide, by decide⟩
    | false => exact ⟨'e', by decide, by decide⟩
  | jnum n =>
    obtain ⟨c, hc, hm⟩ := exists_getLast_mem (numChars_ne_nil n)
    rw [show printV (.jnum n) = numChars n from rfl]
    exact ⟨c, hc, (numlist_good c (numChars_mem n c hm)).1⟩
  | jstr s =>
    refine ⟨'"', ?_, by decide⟩
    rw [show printV (.jstr s) = ('"' :: s.data) ++ ['"'] from by simp [printV]]
    rw [getLast?_append_nonnil _ _ (by simp)]
    rfl
  | jarr a =>
    refine ⟨']', ?_, by decide⟩
    rw [show printV (.jarr a) = ('[' :: printA a) ++ [']'] from by simp [printV]]
    rw [getLast?_append_nonnil _ _ (by simp)]
    rfl
  | jobj o =>
    refine ⟨'\x7d', ?_, by decide⟩
    rw [show printV (.jobj o) = ('\x7b' :: printO o) ++ ['\x7d'] from by simp [printV]]
    rw [getLast?_append_nonnil _ _ (by simp)]
    rfl

/-! ## The forward scan on printed documents -/

theorem stringSafe_split (c : Char) (h : stringSafe c = true) :
    (c = '"') = False ∧ (c = '\\') = False := by
  rw [stringSafe, Bool.and_eq_true] at h
  refine ⟨eq_false ?_, eq_false ?_⟩
  · simpa using h.1
  · simpa using h.2

theorem fwdStep_flags (st : FwdState) (c : Char) (h1 : st.inString = false)
    (h2 : st.escapeNext = false) (hq : (c = '"') = False) (hb : (c = '\\') = False) :
    (fwdStep st c).inString = false ∧ (fwdStep st c).escapeNext = false := by
  rw [fwdStep]
  simp only [h1, h2, hq, hb, Bool.false_eq_true, if_false]
  split_ifs <;> simp [h1, h2]

theorem fwd_neutral_chars (cs : List Char)
    (h : ∀ c ∈ cs, (c = '"') = False ∧ (c = '\\') = False) :
    ∀ st : FwdState, st.inString = false → st.escapeNext = false →
    (cs.foldl fwdStep st).inString = false ∧ (cs.foldl fwdStep st).escapeNext = false := by
  induction cs with
  | nil => intro st h1 h2; exact ⟨h1, h2⟩
  | cons x xs ih =>
    intro st h1 h2
    have hx := h x (List.mem_cons_self x xs)
    have hs := fwdStep_flags st x h1 h2 hx.1 hx.2
    rw [List.foldl_cons]
    exact ih (fun c hc => h c (List.mem_cons_of_mem _ hc)) _ hs.1 hs.2

theorem fwd_string_chars (cs : List Char) (h : ∀ c ∈ cs, stringSafe c = true) :
    ∀ st : FwdState, st.inString = true → st.escapeNext = false →
    cs.foldl fwdStep st = st := by
  induction cs with
  | nil => intro st _ _; rfl
  | cons x xs ih =>
    intro st h1 h2
    obtain ⟨hq, hb⟩ := stringSafe_split x (h x (List.mem_cons_self x xs))
    have hstep : fwdStep st x = st := by
      rw [fwdStep]
      simp only [h1, h2, hq, hb, Bool.false_eq_true, if_false, if_true]
    rw [List.foldl_cons, hstep]
    exact ih (fun c hc => h c (List.mem_cons_of_mem _ hc)) st h1 h2

theorem fwd_quote (st : FwdState) (h2 : st.escapeNext = false) :
    fwdStep st '"' = { st with inString := !st.inString } := by
  rw [fwdStep]
  simp [h2]

theorem numChars_fwd_safe (n : Int) :
    ∀ c ∈ numChars n, (c = '"') = False ∧ (c = '\\') = False := by
  intro c hc
  exact stringSafe_split c (numlist_good c (numChars_mem n c hc)).2.2

theorem fwdStep_quote_flags (st : FwdState) (h2 : st.escapeNext = false) :
    (fwdStep st '"').inString = !st.inString ∧ (fwdStep st '"').escapeNext = false := by
  rw [fwd_quote st h2]
  exact ⟨rfl, h2⟩

mutual

theorem fwdV (v : JVal) (hc : cleanV v = true) :
    ∀ st : FwdState, st.inString = false → st.escapeNext = false →
    ((printV v).foldl fwdStep st).inString = false ∧
    ((printV v).foldl fwdStep st).escapeNext = false := by
  cases v with
  | jnull =>
    exact fwd_neutral_chars _ (by decide)
  | jbool b =>
    cases b with
    | true => exact fwd_neutral_chars _ (by decide)
    | false => exact fwd_neutral_chars _ (by decide)
  | jnum n =>
    exact fwd_neutral_chars _ (numChars_fwd_safe n)
  | jstr s =>
    intro st h1 h2
    have hsafe : ∀ c ∈ s.data, stringSafe c = true := by
      rw [cleanV, List.all_eq_true] at hc
      exact hc
    simp only [printV, List.foldl_cons, List.foldl_append, List.foldl_nil]
    have t1 := fwdStep_quote_flags st h2
    have t1i : (fwdStep st '"').inString = true := by rw [t1.1, h1]; rfl
    rw [fwd_string_chars s.data hsafe _ t1i t1.2]
    have t3 := fwdStep_quote_flags (fwdStep st '"') t1.2
    constructor
    · rw [t3.1, t1i]
      rfl
    · exact t3.2
  | jarr a =>
    intro st h1 h2
    have hc' : cleanA a = true := hc
    simp only [printV, List.foldl_cons, List.foldl_append, List.foldl_nil]
    have hs1 := fwdStep_flags st '[' h1 h2 (by decide) (by decide)
    have hsA := fwdA a hc' _ hs1.1 hs1.2
    exact fwdStep_flags _ ']' hsA.1 hsA.2 (by decide) (by decide)
  | jobj o =>
    intro st h1 h2
    have hc' : cleanO o = true := hc
    simp only [printV, List.foldl_cons, List.foldl_append, List.foldl_nil]
    have hs1 := fwdStep_flags st '\x7b' h1 h2 (by decide) (by decide)
    have hsO := fwdO o hc' _ hs1.1 hs1.2
    exact fwdStep_flags _ '\x7d' hsO.1 hsO.2 (by decide) (by decide)

theorem fwdA (a : JArr) (hc : cleanA a = true) :
    ∀ st : FwdState, st.inString = false → st.escapeNext = false →
    ((printA a).foldl fwdStep st).inString = false ∧
    ((printA a).foldl fwdStep st).escapeNext = false := by
  cases a with
  | anil => intro st h1 h2; exact ⟨h1, h2⟩
  | acons v t =>
    intro st h1 h2
    rw [cleanA, Bool.and_eq_true] at hc
    simp only [printA, List.foldl_append]
    have hsV := fwdV v hc.1 st h1 h2
    exact fwdARest t hc.2 _ hsV.1 hsV.2

theorem fwdARest (a : JArr) (hc : cleanA a = true) :
    ∀ st : FwdState, st.inString = false → st.escapeNext = false →
    ((printARest a).foldl fwdStep st).inString = false ∧
    ((printARest a).foldl fwdStep st).escapeNext = false := by
  cases a with
  | anil => intro st h1 h2; exact ⟨h1, h2⟩
  | acons v t =>
    intro st h1 h2
    rw [cleanA, Bool.and_eq_true] at hc
    simp only [printARest, List.foldl_cons, List.foldl_append]
    have hs1 := fwdStep_flags st ',' h1 h2 (by decide) (by decide)
    have hs2 := fwdStep_flags _ ' ' hs1.1 hs1.2 (by decide) (by decide)
    have hsV := fwdV v hc.1 _ hs2.1 hs2.2
    exact fwdARest t hc.2 _ hsV.1 hsV.2

theorem fwdO (o : JObj) (hc : cleanO o = true) :
    ∀ st : FwdState, st.inString = false → st.escapeNext = false →
    ((printO o).foldl fwdStep st).inString = false ∧
    ((printO o).foldl fwdStep st).escapeNext = false := by
  cases o with
  | onil => intro st h1 h2; exact ⟨h1, h2⟩
  | ocons k v t =>
    intro st h1 h2
    rw [cleanO, Bool.and_eq_true, Bool.and_eq_true] at hc
    obtain ⟨⟨hk, hv⟩, ht⟩ := hc
    have hksafe : ∀ c ∈ k.data, stringSafe c = true := List.all_eq_true.mp hk
    simp only [printO, List.foldl_cons, List.foldl_append, List.foldl_nil]
    have t1 := fwdStep_quote_flags st h2
    have t1i : (fwdStep st '"').inString = true := by rw [t1.1, h1]; rfl
    rw [fwd_string_chars k.data hksafe _ t1i t1.2]
    have t3 := fwdStep_quote_flags (fwdStep st '"') t1.2
    have t3i : (fwdStep (fwdStep st '"') '"').inString = false := by
      rw [t3.1, t1i]
      rfl
    have hs3 := fwdStep_flags _ ':' t3i t3.2 (by decide) (by decide)
    have hs4 := fwdStep_flags _ ' ' hs3.1 hs3.2 (by decide) (by decide)
    have hsV := fwdV v hv _ hs4.1 hs4.2
    exact fwdORest t ht _ hsV.1 hsV.2

theorem fwdORest (o : JObj) (hc : cleanO o = true) :
    ∀ st : FwdState, st.inString = false → st.escapeNext = false →
    ((printORest o).foldl fwdStep st).inString = false ∧
    ((printORest o).foldl fwdStep st).escapeNext = false := by
  cases o with
  | onil => intro st h1 h2; exact ⟨h1, h2⟩
  | ocons k v t =>
    intro st h1 h2
    rw [cleanO, Bool.and_eq_true, Bool.and_eq_true] at hc
    obtain ⟨⟨hk, hv⟩, ht⟩ := hc
    have hksafe : ∀ c ∈ k.data, stringSafe c = true := List.all_eq_true.mp hk
    simp only [printORest, List.foldl_cons, List.foldl_append, List.foldl_nil]
    have hs1 := fwdStep_flags st ',' h1 h2 (by decide) (by decide)
    have hs2 := fwdStep_flags _ ' ' hs1.1 hs1.2 (by decide) (by decide)
    have t1 := fwdStep_quote_flags _ hs2.2
    have t1i : (fwdStep (fwdStep (fwdStep st ',') ' ') '"').inString = true := by
      rw [t1.1, hs2.1]
      rfl
    rw [fwd_string_chars k.data hksafe _ t1i t1.2]
    have t3 := fwdStep_quote_flags _ t1.2
    have t3i : (fwdStep (fwdStep (fwdStep (fwdStep st ',') ' ') '"') '"').inString = false := by
      rw [t3.1, t1i]
      rfl
    have hs3 := fwdStep_flags _ ':' t3i t3.2 (by decide) (by decide)
    have hs4 := fwdStep_flags _ ' ' hs3.1 hs3.2 (by decide) (by decide)
    have hsV := fwdV v hv _ hs4.1 hs4.2
    exact fwdORest t ht _ hsV.1 hsV.2

end

/-- The forward scan over a clean printed document ends outside a string. -/
theorem fwdScan_print (v : JVal) (hc : cleanV v = true) :
    (fwdScan (printV v)).inString = false :=
  (fwdV v hc ⟨false, false, 0, 0⟩ rfl rfl).1

/-! ## The backward scan on printed documents -/

theorem neutralChar_split (c : Char) (h : neutralChar c = true) :
    (c = '"') = False ∧ (c = '\\') = False ∧ (c = '\x7b') = False ∧
    (c = '\x7d') = False ∧ (c = '[') = False ∧ (c = ']') = False := by
  rw [neutralChar] at h
  simp only [Bool.and_eq_true, Bool.not_eq_true', decide_eq_false_iff_not] at h
  exact ⟨eq_false h.1.1.1.1.1, eq_false h.1.1.1.1.2, eq_false h.1.1.1.2,
         eq_false h.1.1.2, eq_false h.1.2, eq_false h.2⟩

theorem bwdScan_cons_neutral (x : Char) (l : List Char) (st : BwdState)
    (hx : neutralChar x = true) : bwdScan (x :: l) st = bwdScan l st := by
  obtain ⟨h1, h2, h3, h4, h5, h6⟩ := neutralChar_split x hx
  rw [bwdScan.eq_def]
  simp only [h1, h2, h3, h4, h5, h6, Bool.false_eq_true, if_false, ite_self]

theorem bwdScan_cons_inString (x : Char) (l : List Char) (st : BwdState)
    (hx : stringSafe x = true) (hs : st.inString = true) :
    bwdScan (x :: l) st = bwdScan l st := by
  obtain ⟨h1, h2⟩ := stringSafe_split x hx
  rw [bwdScan.eq_def]
  simp only [h1, h2, Bool.false_eq_true, if_false, hs, if_true]

theorem bwdScan_quote (l : List Char) (st : BwdState) :
    bwdScan ('"' :: l) st = bwdScan l { st with inString := !st.inString } := by
  rw [bwdScan.eq_def]
  simp

theorem bwdScan_closeBrace (l : List Char) (st : BwdState) (hs : st.inString = false) :
    bwdScan ('\x7d' :: l) st = bwdScan l { st with endBrace := st.endBrace + 1 } := by
  rw [bwdScan.eq_def]
  simp [hs]

theorem bwdScan_openBrace (l : List Char) (st : BwdState) (hs : st.inString = false)
    (hp : 0 < st.endBrace) :
    bwdScan ('\x7b' :: l) st = bwdScan l { st with endBrace := st.endBrace - 1 } := by
  rw [bwdScan.eq_def]
  simp [hs, hp]

theorem bwdScan_closeBracket (l : List Char) (st : BwdState) (hs : st.inString = false) :
    bwdScan (']' :: l) st = bwdScan l { st with endBracket := st.endBracket + 1 } := by
  rw [bwdScan.eq_def]
  simp [hs]

theorem bwdScan_openBracket (l : List Char) (st : BwdState) (hs : st.inString = false)
    (hp : 0 < st.endBracket) :
    bwdScan ('[' :: l) st = bwdScan l { st with endBracket := st.endBracket - 1 } := by
  rw [bwdScan.eq_def]
  simp [hs, hp]

theorem bwd_neutral_list (cs : List Char) (h : ∀ c ∈ cs, neutralChar c = true) :
    ∀ (rest : List Char) (st : BwdState), bwdScan (cs ++ rest) st = bwdScan rest st := by
  induction cs with
  | nil => intro rest st; rfl
  | cons x xs ih =>
    intro rest st
    rw [List.cons_append, bwdScan_cons_neutral x _ st (h x (List.mem_cons_self x xs))]
    exact ih (fun c hc => h c (List.mem_cons_of_mem _ hc)) rest st

theorem bwd_string_list (cs : List Char) (h : ∀ c ∈ cs, stringSafe c = true) :
    ∀ (rest : List Char) (st : BwdState), st.inString = true →
    bwdScan (cs ++ rest) st = bwdScan rest st := by
  induction cs with
  | nil => intro rest st _; rfl
  | cons x xs ih =>
    intro rest st hs
    rw [List.cons_append, bwdScan_cons_inString x _ st (h x (List.mem_cons_self x xs)) hs]
    exact ih (fun c hc => h c (List.mem_cons_of_mem _ hc)) rest st hs

theorem numChars_neutral (n : Int) : ∀ c ∈ (numChars n).reverse, neutralChar c = true := by
  intro c hc
  exact (numlist_good c (numChars_mem n c (List.mem_reverse.mp hc))).2.1

/-- Passing backward over a quoted clean string returns to the same state
when starting outside a string. -/
theorem bwd_quoted_string (d : List Char) (hd : ∀ c ∈ d, stringSafe c = true) :
    ∀ (rest : List Char) (st : BwdState), st.inString = false →
    bwdScan (('"' :: (d ++ ['"'])) ++ rest) st = bwdScan rest st := by
  intro rest st hs
  rw [List.cons_append, List.append_assoc, bwdScan_quote]
  have hs1 : ({ st with inString := !st.inString } : BwdState).inString = true := by
    simp [hs]
  rw [bwd_string_list d hd _ _ hs1, List.cons_append, List.nil_append, bwdScan_quote]
  have heq : ({ { st with inString := !st.inString } with
      inString := !({ st with inString := !st.inString } : BwdState).inString } : BwdState) = st := by
    cases st
    simp_all
  rw [heq]

mutual

theorem bwdV (v : JVal) (hc : cleanV v = true) :
    ∀ (rest : List Char) (st : BwdState), st.inString = false →
    bwdScan ((printV v).reverse ++ rest) st = bwdScan rest st := by
  cases v with
  | jnull =>
    intro rest st _
    exact bwd_neutral_list _ (by decide) rest st
  | jbool b =>
    cases b with
    | true => intro rest st _; exact bwd_neutral_list _ (by decide) rest st
    | false => intro rest st _; exact bwd_neutral_list _ (by decide) rest st
  | jnum n =>
    intro rest st _
    exact bwd_neutral_list _ (numChars_neutral n) rest st
  | jstr s =>
    intro rest st hs
    have hsafe : ∀ c ∈ s.data.reverse, stringSafe c = true := by
      rw [cleanV, List.all_eq_true] at hc
      intro c hcm
      exact hc c (List.mem_reverse.mp hcm)
    rw [show (printV (.jstr s)).reverse = '"' :: (s.data.reverse ++ ['"']) from by
      simp [printV]]
    exact bwd_quoted_string s.data.reverse hsafe rest st hs
  | jarr a =>
    intro rest st hs
    have hc' : cleanA a = true := hc
    rw [show (printV (.jarr a)).reverse = ']' :: ((printA a).reverse ++ ['[']) from by
      simp [printV]]
    rw [List.cons_append, List.append_assoc, bwdScan_closeBracket _ _ hs]
    have hs1 : ({ st with endBracket := st.endBracket + 1 } : BwdState).inString = false := hs
    rw [bwdA a hc' _ _ hs1, List.cons_append, List.nil_append]
    rw [bwdScan_openBracket _ _ hs1 (Nat.succ_pos _)]
    have heq : ({ { st with endBracket := st.endBracket + 1 } with
        endBracket := ({ st with endBracket := st.endBracket + 1 } : BwdState).endBracket - 1 } : BwdState) = st := by
      cases st
      simp
    rw [heq]
  | jobj o =>
    intro rest st hs
    have hc' : cleanO o = true := hc
    rw [show (printV (.jobj o)).reverse = '\x7d' :: ((printO o).reverse ++ ['\x7b']) from by
      simp [printV]]
    rw [List.cons_append, List.append_assoc, bwdScan_closeBrace _ _ hs]
    have hs1 : ({ st with endBrace := st.endBrace + 1 } : BwdState).inString = false := hs
    rw [bwdO o hc' _ _ hs1, List.cons_append, List.nil_append]
    rw [bwdScan_openBrace _ _ hs1 (Nat.succ_pos _)]
    have heq : ({ { st with endBrace := st.endBrace + 1 } with
        endBrace := ({ st with endBrace := st.endBrace + 1 } : BwdState).endBrace - 1 } : BwdState) = st := by
      cases st
      simp
    rw [heq]

theorem bwdA (a : JArr) (hc : cleanA a = true) :
    ∀ (rest : List Char) (st : BwdState), st.inString = false →
    bwdScan ((printA a).reverse ++ rest) st = bwdScan rest st := by
  cases a with
  | anil => intro rest st _; rfl
  | acons v t =>
    intro rest st hs
    rw [cleanA, Bool.and_eq_true] at hc
    rw [show (printA (.acons v t)).reverse =
        (printARest t).reverse ++ (printV v).reverse from by simp [printA]]
    rw [List.append_assoc, bwdARest t hc.2 _ _ hs, bwdV v hc.1 _ _ hs]

theorem bwdARest (a : JArr) (hc : cleanA a = true) :
    ∀ (rest : List Char) (st : BwdState), st.inString = false →
    bwdScan ((printARest a).reverse ++ rest) st = bwdScan rest st := by
  cases a with
  | anil => intro rest st _; rfl
  | acons v t =>
    intro rest st hs
    rw [cleanA, Bool.and_eq_true] at hc
    rw [show (printARest (.acons v t)).reverse =
        (printARest t).reverse ++ ((printV v).reverse ++ [' ', ',']) from by
      simp [printARest]]
    rw [List.append_assoc, bwdARest t hc.2 _ _ hs, List.append_assoc, bwdV v hc.1 _ _ hs]
    rw [List.cons_append, bwdScan_cons_neutral _ _ _ (by decide)]
    rw [List.cons_append, bwdScan_cons_neutral _ _ _ (by decide), List.nil_append]

theorem bwdO (o : JObj) (hc : cleanO o = true) :
    ∀ (rest : List Char) (st : BwdState), st.inString = false →
    bwdScan ((printO o).reverse ++ rest) st = bwdScan rest st := by
  cases o with
  | onil => intro rest st _; rfl
  | ocons k v t =>
    intro rest st hs
    rw [cleanO, Bool.and_eq_true, Bool.and_eq_true] at hc
    obtain ⟨⟨hk, hv⟩, ht⟩ := hc
    have hksafe : ∀ c ∈ k.data.reverse, stringSafe c = true := by
      intro c hcm
      exact List.all_eq_true.mp hk c (List.mem_reverse.mp hcm)
    rw [show (printO (.ocons k v t)).reverse =
        (printORest t).reverse ++ ((printV v).reverse ++ ([' ', ':'] ++
          ('"' :: (k.data.reverse ++ ['"'])))) from by simp [printO]]
    rw [List.append_assoc, bwdORest t ht _ _ hs, List.append_assoc, bwdV v hv _ _ hs]
    rw [List.append_assoc, List.cons_append, bwdScan_cons_neutral _ _ _ (by decide)]
    rw [List.cons_append, bwdScan_cons_neutral _ _ _ (by decide), List.nil_append]
    exact bwd_quoted_string k.data.reverse hksafe rest st hs

theorem bwdORest (o : JObj) (hc : cleanO o = true) :
    ∀ (rest : List Char) (st : BwdState), st.inString = false →
    bwdScan ((printORest o).reverse ++ rest) st = bwdScan rest st := by
  cases o with
  | onil => intro rest st _; rfl
  | ocons k v t =>
    intro rest st hs
    rw [cleanO, Bool.and_eq_true, Bool.and_eq_true] at hc
    obtain ⟨⟨hk, hv⟩, ht⟩ := hc
    have hksafe : ∀ c ∈ k.data.reverse, stringSafe c = true := by
      intro c hcm
      exact List.all_eq_true.mp hk c (List.mem_reverse.mp hcm)
    rw [show (printORest (.ocons k v t)).reverse =
        (printORest t).reverse ++ ((printV v).reverse ++ ([' ', ':'] ++
          ('"' :: (k.data.reverse ++ ('"' :: [' ', ',']))))) from by simp [printORest]]
    rw [List.append_assoc, bwdORest t ht _ _ hs, List.append_assoc, bwdV v hv _ _ hs]
    rw [List.append_assoc, List.cons_append, bwdScan_cons_neutral _ _ _ (by decide)]
    rw [List.cons_append, bwdScan_cons_neutral _ _ _ (by decide), List.nil_append]
    rw [show ('"' :: (k.data.reverse ++ ('"' :: [' ', ',']))) ++ rest =
        ('"' :: (k.data.reverse ++ ['"'])) ++ ([' ', ','] ++ rest) from by simp]
    rw [bwd_quoted_string k.data.reverse hksafe _ st hs]
    rw [List.cons_append, bwdScan_cons_neutral _ _ _ (by decide)]
    rw [List.cons_append, bwdScan_cons_neutral _ _ _ (by decide), List.nil_append]

end

/-- The backward scan over a clean printed document reports no open
structures. -/
theorem bwdScan_print (v : JVal) (hc : cleanV v = true) :
    bwdScan (printV v).reverse ⟨0, 0, false⟩ = ⟨0, 0, false⟩ := by
  have h := bwdV v hc [] ⟨0, 0, false⟩ rfl
  rw [List.append_nil] at h
  exact h

/-! ## The remaining pipeline stages on printed documents -/

theorem goodEnd_split (c : Char) (h : goodEnd c = true) :
    isPySpace c = false ∧ (c = ':') = False ∧ (c = ',') = False := by
  rw [goodEnd] at h
  simp only [Bool.and_eq_true, Bool.not_eq_true', decide_eq_false_iff_not] at h
  exact ⟨h.1.1, eq_false h.1.2, eq_false h.2⟩

theorem pyStripL_eq_self (l : List Char) (c0 cN : Char) (hh : l.head? = some c0)
    (hh2 : isPySpace c0 = false) (hl : l.getLast? = some cN)
    (hl2 : isPySpace cN = false) : pyStripL l = l := by
  cases l with
  | nil => cases hh
  | cons x xs =>
    have hx : x = c0 := by simpa using hh
    subst hx
    rw [pyStripL, List.dropWhile_cons, hh2]
    simp only [Bool.false_eq_true, if_false]
    exact pyRstripL_eq_self _ cN hl hl2

theorem dropWhile_getLast (p : Char → Bool) (l : List Char) (c : Char)
    (hl : l.getLast? = some c) (hc : p c = false) :
    (l.dropWhile p).getLast? = some c := by
  induction l with
  | nil => cases hl
  | cons x xs ih =>
    cases hxs : xs with
    | nil =>
      subst hxs
      have hx : x = c := by simpa using hl
      subst hx
      rw [List.dropWhile_cons, hc]
      simp
    | cons y ys =>
      subst hxs
      rw [List.getLast?_cons_cons] at hl
      rw [List.dropWhile_cons]
      cases hp : p x with
      | true =>
        simp only [if_true]
        exact ih hl
      | false =>
        simp only [Bool.false_eq_true, if_false, List.getLast?_cons_cons]
        exact hl

theorem pyStripL_ne_nil (l : List Char) (c : Char) (hl : l.getLast? = some c)
    (hc : isPySpace c = false) : pyStripL l ≠ [] := by
  have hdrop := dropWhile_getLast isPySpace l c hl hc
  rw [pyStripL, pyRstripL_eq_self _ c hdrop hc]
  intro h0
  rw [h0] at hdrop
  cases hdrop

/-- The dangling-colon defense leaves a printed document alone: the text
after the last colon (if any) is never empty, because the document's last
character is not a colon and not whitespace. -/
theorem colonDefense_print (v : JVal) : colonDefense false (printV v) = printV v := by
  obtain ⟨cN, hl, hlg⟩ := printV_last v
  obtain ⟨hNsp, hNcolon, _⟩ := goodEnd_split cN hlg
  rw [colonDefense]
  cases hdw : (printV v).reverse.dropWhile (fun c => !(c = ':')) with
  | nil => rfl
  | cons a before =>
    by_cases hb : before = []
    · simp [hb]
    · have hhead : (printV v).reverse.head? = some cN := by
        rw [List.head?_reverse, hl]
      have hT : ((printV v).reverse.takeWhile (fun c => !(c = ':'))).head? = some cN := by
        cases hrev : (printV v).reverse with
        | nil => rw [hrev] at hhead; cases hhead
        | cons x xs =>
          rw [hrev] at hhead
          have hx : x = cN := by simpa using hhead
          subst hx
          rw [List.takeWhile_cons]
          simp [hNcolon]
      have hA : pyStripL ((printV v).reverse.takeWhile (fun c => !(c = ':'))).reverse ≠ [] := by
        refine pyStripL_ne_nil _ cN ?_ hNsp
        rw [List.getLast?_reverse]
        exact hT
      simp only [hb, Bool.or_self, if_false, Bool.false_eq_true]
      split_ifs with h1 h2 h3 <;> rfl

/-- Claim C4 (amended): on a canonically printed JSON document whose
strings contain no quote or backslash, the repair is the identity — so it
is a no-op (up to surrounding whitespace) on such valid JSON.  Documents
with escape sequences can be corrupted instead, as `claim_C4_cx` shows. -/
theorem claim_C4 (v : JVal) (hc : cleanV v = true) :
    repairTruncatedJson (String.mk (printV v)) = String.mk (printV v) := by
  obtain ⟨c0, hh, hhg⟩ := printV_head v
  obtain ⟨cN, hl, hlg⟩ := printV_last v
  obtain ⟨hNsp, hNcolon, hNcomma⟩ := goodEnd_split cN hlg
  have hstrip : pyStripL (printV v) = printV v :=
    pyStripL_eq_self _ c0 cN hh (goodEnd_split c0 hhg).1 hl hNsp
  have hrstrip : pyRstripL (printV v) = printV v := pyRstripL_eq_self _ cN hl hNsp
  have hfwd := fwdScan_print v hc
  have hbwd := bwdScan_print v hc
  have hcolon := colonDefense_print v
  have hstc : stripTrailingComma (printV v) = printV v :=
    stripTrailingComma_eq_self _ cN hl hNsp hNcomma
  rw [repairTruncatedJson]
  show String.mk _ = _
  simp only [show (String.mk (printV v)).data = printV v from rfl, hstrip, hrstrip,
    hfwd, Bool.false_eq_true, if_false, hbwd, hcolon, hstc]
  rw [show closeChars (⟨0, 0, false⟩ : BwdState).endBrace
      (⟨0, 0, false⟩ : BwdState).endBracket = [] from rfl]
  rw [List.append_nil, hstc]

/-- Claim C4 witness: the amended statement at the document
`\x7b"name": "Ana", "tags": ["x", 12], "ok": true\x7d`. -/
theorem claim_C4_witness :
    cleanV (.jobj (.ocons "name" (.jstr "Ana")
      (.ocons "tags" (.jarr (.acons (.jstr "x") (.acons (.jnum 12) .anil)))
        (.ocons "ok" (.jbool true) .onil)))) = true ∧
    repairTruncatedJson (String.mk (printV (.jobj (.ocons "name" (.jstr "Ana")
      (.ocons "tags" (.jarr (.acons (.jstr "x") (.acons (.jnum 12) .anil)))
        (.ocons "ok" (.jbool true) .onil)))))) =
    String.mk (printV (.jobj (.ocons "name" (.jstr "Ana")
      (.ocons "tags" (.jarr (.acons (.jstr "x") (.acons (.jnum 12) .anil)))
        (.ocons "ok" (.jbool true) .onil))))) :=
  ⟨by decide, claim_C4 _ (by decide)⟩

end Epitome
